import Mathlib

/-!
# E-ink browser testing dashboard: the capability test harness

A shallow embedding of `src/script.js` (class `EInkBrowserTester`) and of the path guard
of the request handler of `src/server.js`.

Conventions of the embedding.

* Status tags are the JavaScript strings `'pass'`, `'partial'`, `'fail'`, `'info'`.
* `this.results` is an insertion-ordered association list from property name to value.
* One clock `now` (milliseconds, a natural number) stands for both `performance.now()` and
  `new Date()`; a timestamp is the clock reading at which it was taken.
* A JavaScript exception is an explicit `Outcome.threw`, which keeps the state reached at
  the throw.
* Text written into the page (`innerHTML`, `textContent`, class names of result cells) is
  not modelled, except for the `#exportData` field and the fact that a summary was rendered.
* The event loop is a step function on the state: an event runs one task, then the
  microtask queue is emptied. `runAllTests` is cut at its two `await`s into three parts;
  the chain of resumptions behind a settled `await` runs inside the task of the timer or of
  the request, since no other job can be queued in between. One invocation of
  `runAllTests` is in flight at a time.
* `Promise`, `setTimeout` and `requestAnimationFrame` exist; `fetch` is either undefined
  or returns a promise that settles in a later task.
-/

namespace EInk

/-! ## Numbers -/

/-- The value `Math.round(num / den)` for natural numbers `num`, `den` with `den > 0`: the nearest
integer, a half rounding up. -/
def mathRound (num den : Nat) : Nat :=
  (2 * num + den) / (2 * den)

/-! ## The result registry -/

/-- The object `resolutionData` built by `testResolution`. The device pixel ratio is kept
as a fraction `dprNum / dprDen`. -/
structure ResolutionData where
  screenWidth : Nat
  screenHeight : Nat
  availWidth : Nat
  availHeight : Nat
  colorDepth : Nat
  pixelDepth : Nat
  viewportWidth : Nat
  viewportHeight : Nat
  dprNum : Nat
  dprDen : Nat
  actualWidth : Nat
  actualHeight : Nat
  deriving DecidableEq, Repr

/-- A value stored under a property of `this.results`: the record written by `logResult`,
the object written by `testResolution`, or the number written by `testContrast`. -/
inductive Value where
  | probeResult (message : String) (status : String) (timestamp : Nat)
  | resolutionData (d : ResolutionData)
  | number (n : Nat)
  deriving DecidableEq, Repr

/-- The JavaScript expression `r.status`; `none` is `undefined`. -/
def Value.status : Value → Option String
  | .probeResult _ s _ => some s
  | .resolutionData _ => none
  | .number _ => none

/-- A value is a ProbeResult when it is a record with a message, a timestamp and a status
that is one of the four tags. -/
def Value.isProbeResult : Value → Bool
  | .probeResult _ s _ => s == "pass" || s == "partial" || s == "fail" || s == "info"
  | .resolutionData _ => false
  | .number _ => false

/-- The object `this.results`, in property insertion order. -/
abbrev Registry := List (String × Value)

/-- Property assignment `results[key] = v`: an existing property keeps its place and gets the
new value, a new property is appended. -/
def Registry.assign : Registry → String → Value → Registry
  | [], key, v => [(key, v)]
  | (k, w) :: rest, key, v =>
    if k = key then (key, v) :: rest else (k, w) :: Registry.assign rest key v

/-- Property read `results[key]`; `none` is `undefined`. -/
def Registry.get : Registry → String → Option Value
  | [], _ => none
  | (k, w) :: rest, key => if k = key then some w else Registry.get rest key

/-- The property names, `Object.keys(results)`. -/
def Registry.keys (r : Registry) : List String :=
  r.map Prod.fst

/-- The expression `Object.values(results).filter(r => r.status === tag).length`. -/
def countStatus (r : Registry) (tag : String) : Nat :=
  (r.filter fun kv => kv.2.status == some tag).length

/-- The four counts computed by `generateSummary` and again by `updateExportData`. -/
structure SummaryCounts where
  totalTests : Nat
  passedTests : Nat
  failedTests : Nat
  partialTests : Nat
  deriving DecidableEq, Repr

/-- The counts of lines 497-500 and 538-541. -/
def summaryCounts (r : Registry) : SummaryCounts :=
  { totalTests := r.keys.length
    passedTests := countStatus r "pass"
    failedTests := countStatus r "fail"
    partialTests := countStatus r "partial" }

/-- The object `exportData` built by `updateExportData`; `JSON.stringify` is not modelled,
the field holds the object itself. -/
structure ExportSnapshot where
  timestamp : Nat
  userAgent : String
  viewportWidth : Nat
  viewportHeight : Nat
  dprNum : Nat
  dprDen : Nat
  results : Registry
  summary : SummaryCounts
  deriving DecidableEq, Repr

/-! ## The environment -/

/-- What the four micro-checks of `testBasicJavaScript` evaluate to. -/
structure BasicChecks where
  arrayCheck : Bool
  objectCheck : Bool
  functionCheck : Bool
  jsonCheck : Bool
  deriving DecidableEq, Repr

/-- What the five conditions of `testES6Features` evaluate to (the arrow-function entry is
pushed without a condition). -/
structure Es6Checks where
  templateLiterals : Bool
  destructuring : Bool
  spreadOperator : Bool
  classes : Bool
  letConst : Bool
  deriving DecidableEq, Repr

/-- The element `#testCanvas` as `testImageSupport` meets it. -/
inductive CanvasEnv where
  /-- The call `getElementById('testCanvas')` gives `null`. -/
  | absent
  /-- The call `getContext('2d')` gives `null`; the first use of `ctx` throws with this description. -/
  | noContext (error : String)
  /-- Drawing or read-back throws with this description. -/
  | drawThrows (error : String)
  /-- Read-back gives this alpha byte for the pixel at (20, 20). -/
  | alpha (a : Nat)
  deriving DecidableEq, Repr

/-- The branch of `testFormControls` a control takes. -/
inductive ControlKind where
  | text | checkbox | range | select | other
  deriving DecidableEq, Repr

/-- One element matched by `.form-demo input, .form-demo select`: its kind, whether the
value written is the value read back, and whether touching it throws. -/
structure FormControl where
  kind : ControlKind
  sticks : Bool
  throws : Bool
  deriving DecidableEq, Repr

/-- How one storage mechanism behaves inside its `try` block of `testStorage`. -/
inductive StoreOutcome where
  /-- The write (`setItem`, or the assignment to `document.cookie`) throws. -/
  | writeThrows
  /-- The read-back (`getItem`, or reading `document.cookie`) throws. -/
  | readThrows
  /-- Write and read-back return; `isMatch` tells whether the value read is the value
  written, `cleanupThrows` whether the removal after the check throws. -/
  | readBack (isMatch : Bool) (cleanupThrows : Bool)
  deriving DecidableEq, Repr

/-- The environment signals the probes read. -/
structure Env where
  screenWidth : Nat
  screenHeight : Nat
  availWidth : Nat
  availHeight : Nat
  colorDepth : Nat
  pixelDepth : Nat
  innerWidth : Nat
  innerHeight : Nat
  /-- The numerator of `window.devicePixelRatio`, 0 when it is falsy. -/
  dprNum : Nat
  dprDen : Nat
  userAgent : String
  /-- Whether `document.querySelector('.resolution-details')` is an element. -/
  resolutionDetails : Bool
  /-- The number of elements matching `.contrast-samples .sample`. -/
  contrastSamples : Nat
  /-- The micro-checks of `testBasicJavaScript`, or the description of the fault thrown. -/
  basicJs : Except String BasicChecks
  /-- The conditions of `testES6Features`, or the description of the fault thrown. -/
  es6 : Except String Es6Checks
  /-- Computed `display` of `.flex-demo`; `none` when the element is absent. -/
  flexDemo : Option String
  /-- Computed `display` of `.grid-demo`; `none` when the element is absent. -/
  gridDemo : Option String
  /-- Computed `animationName` of `.animation-demo`; `none` when the element is absent. -/
  animationDemo : Option String
  canvas : CanvasEnv
  /-- The `namespaceURI` of the first `svg` element; `none` when there is none. -/
  svg : Option String
  formControls : List FormControl
  localStorage : StoreOutcome
  sessionStorage : StoreOutcome
  cookies : StoreOutcome
  /-- Whether `typeof fetch` is not `'undefined'`. -/
  fetchAvailable : Bool
  /-- Whether `'geolocation' in navigator`. -/
  geolocation : Bool
  /-- The measured `renderTime` of `testRenderingPerformance` in milliseconds, as the
  fraction `renderNum / renderDen` with `renderDen > 0`. -/
  renderNum : Nat
  renderDen : Nat
  /-- The pair `usedJSHeapSize`, `jsHeapSizeLimit` in bytes; `none` when
  `'memory' in performance` is false. -/
  memory : Option (Nat × Nat)
  /-- Whether `'ontouchstart' in window || navigator.maxTouchPoints > 0`. -/
  hasTouchCapability : Bool

/-- The description of the `TypeError` thrown by `window.getComputedStyle(null)`. -/
def computedStyleError : String :=
  "Failed to execute 'getComputedStyle' on 'Window': parameter 1 is not of type 'Element'."

/-- The description of the `TypeError` thrown by a property access on `null`. -/
def nullError : String :=
  "Cannot read properties of null"

/-- The expression `window.devicePixelRatio || 1`, as a fraction. -/
def Env.devicePixelRatio (env : Env) : Nat × Nat :=
  if env.dprNum = 0 then (1, 1) else (env.dprNum, env.dprDen)

/-! ## The tester and the page state it acts on -/

/-- The closure `countFrames` of one call of `testRefreshRate`, waiting in
`requestAnimationFrame`. -/
structure RafClosure where
  startTime : Nat
  frames : Nat
  deriving DecidableEq, Repr

/-- A job waiting in the microtask queue. -/
inductive Micro where
  /-- The `.then` callback of `testPromiseSupport`. -/
  | promiseThen
  /-- The rest of `runAllTests` after `await this.testFetchAPI()`, when `testFetchAPI`
  returned without suspending. -/
  | resumeAfterFetch
  deriving DecidableEq, Repr

/-- Where the one invocation of `runAllTests` in flight stands. -/
inductive Phase where
  | idle
  /-- Suspended at `await this.testAsyncSupport()`, the 10 ms timer pending. -/
  | awaitTimer
  /-- Suspended at `await this.testFetchAPI()`, the request pending. -/
  | awaitFetch
  /-- Returned after `updateExportData`. -/
  | finished
  /-- A probe threw: the promise of `runAllTests` is rejected with this description. -/
  | rejected (error : String)
  deriving DecidableEq, Repr

/-- The tester instance (`results`, `startTime`), the closure variables of its handlers
and the parts of the page and of the event loop they read and write. -/
structure Tester where
  results : Registry
  startTime : Nat
  /-- The clock. -/
  now : Nat
  /-- Callbacks registered with `requestAnimationFrame` for the next frame. -/
  rafCallbacks : List RafClosure
  microtasks : List Micro
  phase : Phase
  /-- When the timer of `testAsyncSupport` is due. -/
  timerDue : Nat
  /-- The counts last rendered into `#summaryContent`; `none` before any rendering. -/
  summaryContent : Option SummaryCounts
  /-- The value of the field `#exportData`; `none` is the value the page starts with. -/
  exportData : Option ExportSnapshot
  /-- The variable `touchSupported` of `setupTouchTest`. -/
  touchSupported : Bool
  /-- Whether `#touchArea` has the class `touched`. -/
  touched : Bool
  /-- Whether `body` has the class `high-contrast`. -/
  highContrast : Bool
  deriving DecidableEq, Repr

/-- The tester right after construction, before `init` arms anything. -/
def Tester.fresh : Tester :=
  { results := [], startTime := 0, now := 0, rafCallbacks := [], microtasks := [],
    phase := .idle, timerDue := 0, summaryContent := none, exportData := none,
    touchSupported := false, touched := false, highContrast := false }

/-- The result of running a piece of synchronous code: it returned, or it threw, in both
cases with the state it reached. -/
inductive Outcome where
  | done (t : Tester)
  | threw (error : String) (t : Tester)
  deriving DecidableEq, Repr

/-- The state reached. -/
def Outcome.state : Outcome → Tester
  | .done t => t
  | .threw _ t => t

/-- Statements in sequence: the first throw ends the sequence. -/
def runSteps : List (Tester → Outcome) → Tester → Outcome
  | [], t => .done t
  | p :: ps, t =>
    match p t with
    | .done t' => runSteps ps t'
    | .threw e t' => .threw e t'

/-- Method `logResult(testId, message, status)`, lines 485-493. -/
def logResult (t : Tester) (testId message status : String) : Tester :=
  { t with results := t.results.assign testId (.probeResult message status t.now) }

/-- A statement that cannot throw. -/
def ok (f : Tester → Tester) : Tester → Outcome :=
  fun t => .done (f t)

/-! ## Display probes -/

/-- Lines 123-130 of `testResolution`: the display category of a screen. -/
def displayCategory (width height : Nat) : String :=
  let totalPixels := width * height
  if totalPixels ≥ 3840 * 2160 then "4K+ Display"
  else if totalPixels ≥ 2560 * 1440 then "2K Display"
  else if totalPixels ≥ 1920 * 1080 then "Full HD"
  else if totalPixels ≥ 1366 * 768 then "HD Display"
  else if totalPixels ≥ 1024 * 768 then "Standard Display"
  else "Low Resolution"

/-- The object `resolutionData` of lines 82-97. -/
def resolutionDataOf (env : Env) : ResolutionData :=
  { screenWidth := env.screenWidth
    screenHeight := env.screenHeight
    availWidth := env.availWidth
    availHeight := env.availHeight
    colorDepth := env.colorDepth
    pixelDepth := env.pixelDepth
    viewportWidth := env.innerWidth
    viewportHeight := env.innerHeight
    dprNum := env.devicePixelRatio.1
    dprDen := env.devicePixelRatio.2
    actualWidth := mathRound (env.innerWidth * env.devicePixelRatio.1) env.devicePixelRatio.2
    actualHeight := mathRound (env.innerHeight * env.devicePixelRatio.1) env.devicePixelRatio.2 }

/-- The message of line 132. -/
def resolutionMessage (width height : Nat) : String :=
  displayCategory width height ++ ": " ++ toString width ++ "×" ++ toString height ++ " ("
    ++ toString (mathRound (width * height) 1000000) ++ "MP)"

/-- Method `testResolution`, lines 74-134. Writing `innerHTML` of an absent `.resolution-details`
throws; nothing is recorded before that. -/
def testResolution (env : Env) (t : Tester) : Outcome :=
  if env.resolutionDetails then
    let t1 := logResult t "resolutionTest"
      (resolutionMessage env.screenWidth env.screenHeight) "info"
    .done { t1 with
      results := t1.results.assign "resolutionData" (.resolutionData (resolutionDataOf env)) }
  else
    .threw nullError t

/-- The status of line 147. -/
def refreshStatus (fps : Nat) : String :=
  if fps > 30 then "pass" else if fps > 10 then "partial" else "fail"

/-- The value `Math.round(frames / 2)` of line 146. -/
def refreshFps (frames : Nat) : Nat :=
  mathRound frames 2

/-- Method `testRefreshRate`, lines 136-152: nothing is recorded, the closure `countFrames` is
handed to `requestAnimationFrame` with no frame counted yet. -/
def testRefreshRate (t : Tester) : Tester :=
  { t with rafCallbacks := t.rafCallbacks ++ [{ startTime := t.now, frames := 0 }] }

/-- One call of the closure `countFrames`, lines 141-149. -/
def countFrames (c : RafClosure) (t : Tester) : Tester :=
  let frames := c.frames + 1
  if t.now - c.startTime < 2000 then
    { t with rafCallbacks := t.rafCallbacks ++ [{ startTime := c.startTime, frames := frames }] }
  else
    logResult t "refreshTest"
      ("Estimated refresh rate: " ++ toString (refreshFps frames) ++ " FPS")
      (refreshStatus (refreshFps frames))

/-- Method `testContrast`, lines 154-166. -/
def testContrast (env : Env) (t : Tester) : Tester :=
  let t1 := logResult t "contrastTest"
    "5 contrast levels tested. High contrast recommended for e-ink." "info"
  { t1 with results := t1.results.assign "contrastLevels" (.number env.contrastSamples) }

/-- The sizes `parseInt` reads from the list `fonts` of line 169. -/
def fonts : List Nat := [12, 16, 20, 24]

/-- Method `testFontRendering`, lines 168-177. -/
def testFontRendering (t : Tester) : Tester :=
  let readableFonts := fonts.filter fun sizeNum => sizeNum ≥ 14
  logResult t "fontTest"
    (toString readableFonts.length ++ "/" ++ toString fonts.length
      ++ " font sizes optimal for e-ink")
    (if readableFonts.length ≥ 3 then "pass" else "partial")

/-! ## JavaScript probes -/

/-- The array `basicFeatures` of lines 185-190. -/
def BasicChecks.toList (c : BasicChecks) : List Bool :=
  [c.arrayCheck, c.objectCheck, c.functionCheck, c.jsonCheck]

/-- Method `testBasicJavaScript`, lines 179-197. -/
def testBasicJavaScript (env : Env) (t : Tester) : Tester :=
  match env.basicJs with
  | .ok c =>
    let passCount := (c.toList.filter id).length
    logResult t "jsBasicTest" (toString passCount ++ "/4 basic JavaScript features working")
      (if passCount = 4 then "pass" else "partial")
  | .error e => logResult t "jsBasicTest" ("Basic JavaScript error: " ++ e) "fail"

/-- The array `features` at line 234. -/
def Es6Checks.features (c : Es6Checks) : List String :=
  ["arrow functions"]
    ++ (if c.templateLiterals then ["template literals"] else [])
    ++ (if c.destructuring then ["destructuring"] else [])
    ++ (if c.spreadOperator then ["spread operator"] else [])
    ++ (if c.classes then ["classes"] else [])
    ++ (if c.letConst then ["let/const"] else [])

/-- Method `testES6Features`, lines 199-235. -/
def testES6Features (env : Env) (t : Tester) : Tester :=
  match env.es6 with
  | .ok c =>
    logResult t "es6Test"
      (toString c.features.length ++ "/6 ES6 features supported: "
        ++ String.intercalate ", " c.features)
      (if c.features.length ≥ 4 then "pass" else "partial")
  | .error e => logResult t "es6Test" ("ES6 error: " ++ e) "fail"

/-- Method `testAsyncSupport` up to its suspension, lines 237-244: the 10 ms timer is set. -/
def testAsyncSupportStart (t : Tester) : Tester :=
  { t with timerDue := t.now + 10 }

/-- Method `testAsyncSupport` from its resumption, line 245. -/
def testAsyncSupportResume (t : Tester) : Tester :=
  logResult t "asyncTest" "Async/await supported: async works" "pass"

/-- Method `testPromiseSupport`, lines 251-265: the promise is already resolved, so `.then` puts
its callback into the microtask queue; nothing is recorded yet. -/
def testPromiseSupport (t : Tester) : Tester :=
  { t with microtasks := t.microtasks ++ [Micro.promiseThen] }

/-- The `.then` callback of line 258. -/
def promiseThen (t : Tester) : Tester :=
  logResult t "promiseTest" "Promises supported: promise works" "pass"

/-! ## CSS probes -/

/-- Method `testFlexbox`, lines 267-273. `getComputedStyle(null)` throws. -/
def testFlexbox (env : Env) (t : Tester) : Outcome :=
  match env.flexDemo with
  | none => .threw computedStyleError t
  | some display =>
    let isFlexbox := display = "flex"
    .done (logResult t "flexboxTest"
      ("Flexbox " ++ (if isFlexbox then "supported" else "not supported"))
      (if isFlexbox then "pass" else "fail"))

/-- Method `testCSSGrid`, lines 275-281. -/
def testCSSGrid (env : Env) (t : Tester) : Outcome :=
  match env.gridDemo with
  | none => .threw computedStyleError t
  | some display =>
    let isGrid := display = "grid"
    .done (logResult t "gridTest"
      ("CSS Grid " ++ (if isGrid then "supported" else "not supported"))
      (if isGrid then "pass" else "fail"))

/-- Method `testAnimations`, lines 283-290. -/
def testAnimations (env : Env) (t : Tester) : Outcome :=
  match env.animationDemo with
  | none => .threw computedStyleError t
  | some animationName =>
    let hasAnimation := animationName ≠ "none"
    .done (logResult t "animationTest"
      ("CSS Animations "
        ++ (if hasAnimation then "supported (may cause ghosting on e-ink)" else "not supported"))
      (if hasAnimation then "info" else "fail"))

/-! ## Media probes -/

/-- Method `testImageSupport`, lines 292-310. `canvas.getContext` is called before the `try`. -/
def testImageSupport (env : Env) (t : Tester) : Outcome :=
  match env.canvas with
  | .absent => .threw nullError t
  | .noContext e => .done (logResult t "imageTest" ("Canvas error: " ++ e) "fail")
  | .drawThrows e => .done (logResult t "imageTest" ("Canvas error: " ++ e) "fail")
  | .alpha a =>
    let hasCanvas := a > 0
    .done (logResult t "imageTest"
      ("Canvas " ++ (if hasCanvas then "supported" else "not supported"))
      (if hasCanvas then "pass" else "fail"))

/-- Method `testSVGSupport`, lines 312-317. -/
def testSVGSupport (env : Env) (t : Tester) : Tester :=
  let hasSVG := env.svg = some "http://www.w3.org/2000/svg"
  logResult t "svgTest" ("SVG " ++ (if hasSVG then "supported" else "not supported"))
    (if hasSVG then "pass" else "fail")

/-! ## Input probes -/

/-- Whether the body of the `forEach` of lines 351-368 increments `workingElements`. -/
def FormControl.working (c : FormControl) : Bool :=
  if c.throws then false
  else
    match c.kind with
    | .text => c.sticks
    | .checkbox => c.sticks
    | .range => c.sticks
    | .select => true
    | .other => false

/-- Method `testFormControls`, lines 347-371. -/
def testFormControls (env : Env) (t : Tester) : Tester :=
  let workingElements := (env.formControls.filter FormControl.working).length
  logResult t "formTest"
    (toString workingElements ++ "/" ++ toString env.formControls.length
      ++ " form controls working")
    (if workingElements = env.formControls.length then "pass" else "partial")

/-- The `touchstart` listener, lines 323-328. -/
def onTouchstart (t : Tester) : Tester :=
  logResult { t with touchSupported := true, touched := true }
    "touchTest" "Touch events supported" "pass"

/-- The `click` listener of the touch area, lines 330-336. -/
def onClick (t : Tester) : Tester :=
  if !t.touchSupported then
    logResult { t with touched := true }
      "touchTest" "Mouse/click events supported (no touch detected)" "partial"
  else t

/-- The callback of the 5-second timer, lines 339-344. -/
def onGraceTimer (env : Env) (t : Tester) : Tester :=
  if !t.touchSupported && !t.touched then
    logResult t "touchTest"
      ("Touch capability: "
        ++ (if env.hasTouchCapability then "detected but not tested" else "not available"))
      (if env.hasTouchCapability then "info" else "fail")
  else t

/-! ## Storage and API probes -/

/-- One `try` block of `testStorage` acting on the array `tests`: the name is pushed when
write and read-back return and the value read is the value written; a throw anywhere in
the block is caught and leaves `tests` as it is at the throw. -/
def tryStore (name : String) (o : StoreOutcome) (tests : List String) : List String :=
  match o with
  | .writeThrows => tests
  | .readThrows => tests
  | .readBack isMatch _ => if isMatch then tests ++ [name] else tests

/-- The array `tests` at line 409. -/
def storageTests (env : Env) : List String :=
  tryStore "cookies" env.cookies
    (tryStore "sessionStorage" env.sessionStorage
      (tryStore "localStorage" env.localStorage []))

/-- The message of line 409. -/
def storageMessage (tests : List String) : String :=
  "Storage supported: " ++ String.intercalate ", " tests

/-- The status of line 409. -/
def storageStatus (tests : List String) : String :=
  if tests.length > 0 then "pass" else "fail"

/-- Method `testStorage`, lines 373-410. -/
def testStorage (env : Env) (t : Tester) : Tester :=
  logResult t "storageTest" (storageMessage (storageTests env)) (storageStatus (storageTests env))

/-- Method `testFetchAPI` up to its suspension or early return, lines 412-421. Without `fetch` the
failure is recorded at once and the function returns, so the caller resumes from the
microtask queue. -/
def testFetchAPIStart (env : Env) (t : Tester) : Tester :=
  if env.fetchAvailable then t
  else
    let t1 := logResult t "fetchTest" "Fetch API not available" "fail"
    { t1 with microtasks := t1.microtasks ++ [Micro.resumeAfterFetch] }

/-- Method `testFetchAPI` from its resumption, lines 422-427: the request gave a text or failed
with a description. -/
def testFetchAPIResume (r : Except String String) (t : Tester) : Tester :=
  match r with
  | .ok text => logResult t "fetchTest" ("Fetch API supported: " ++ text) "pass"
  | .error e => logResult t "fetchTest" ("Fetch API error: " ++ e) "fail"

/-- Method `testGeolocation`, lines 430-436. -/
def testGeolocation (env : Env) (t : Tester) : Tester :=
  if env.geolocation then
    logResult t "geolocationTest"
      "Geolocation API available (not tested to preserve privacy)" "info"
  else
    logResult t "geolocationTest" "Geolocation API not available" "fail"

/-! ## Performance probes -/

/-- The string `x.toFixed(2)` for `x = num / den`. -/
def toFixed2 (num den : Nat) : String :=
  let hundredths := mathRound (100 * num) den
  toString (hundredths / 100) ++ "." ++ (if hundredths % 100 < 10 then "0" else "")
    ++ toString (hundredths % 100)

/-- The status of line 453 for `renderTime = num / den`. -/
def renderStatus (num den : Nat) : String :=
  if num < 50 * den then "pass" else if num < 200 * den then "partial" else "fail"

/-- Method `testRenderingPerformance`, lines 438-454. -/
def testRenderingPerformance (env : Env) (t : Tester) : Tester :=
  logResult t "renderTest"
    ("DOM manipulation: " ++ toFixed2 env.renderNum env.renderDen ++ "ms for 100 elements")
    (renderStatus env.renderNum env.renderDen)

/-- The value `Math.round(bytes / 1024 / 1024)` of lines 459-460. -/
def toMB (bytes : Nat) : Nat :=
  mathRound bytes (1024 * 1024)

/-- The status of line 462. The comparison `usedMB < limitMB * 0.8` is taken over the
whole megabytes, as tenths: the double `limitMB * 0.8` exceeds the exact product by less
than half a unit in the last place, so it compares with the whole number `usedMB` as the
exact product does. -/
def memoryStatus (usedMB limitMB : Nat) : String :=
  if 10 * usedMB < 8 * limitMB then "pass" else "info"

/-- Method `testMemoryUsage`, lines 456-466. -/
def testMemoryUsage (env : Env) (t : Tester) : Tester :=
  match env.memory with
  | some (used, limit) =>
    logResult t "memoryTest"
      ("Memory usage: " ++ toString (toMB used) ++ "MB / " ++ toString (toMB limit)
        ++ "MB limit")
      (memoryStatus (toMB used) (toMB limit))
  | none => logResult t "memoryTest" "Memory API not available" "info"

/-! ## Summary and export -/

/-- Method `generateSummary`, lines 495-525: the counts are rendered into
`#summaryContent`. The score and the duration shown next to them are floating-point
values and are not modelled. -/
def generateSummary (t : Tester) : Tester :=
  { t with summaryContent := some (summaryCounts t.results) }

/-- The object `exportData` of lines 528-543. -/
def exportSnapshot (env : Env) (t : Tester) : ExportSnapshot :=
  { timestamp := t.now
    userAgent := env.userAgent
    viewportWidth := env.innerWidth
    viewportHeight := env.innerHeight
    dprNum := env.devicePixelRatio.1
    dprDen := env.devicePixelRatio.2
    results := t.results
    summary := summaryCounts t.results }

/-- Method `updateExportData`, lines 527-546. -/
def updateExportData (env : Env) (t : Tester) : Tester :=
  { t with exportData := some (exportSnapshot env t) }

/-- The file offered by `exportResults`: its content and the clock reading its name is
made from. -/
structure Download where
  data : Option ExportSnapshot
  date : Nat
  deriving DecidableEq, Repr

/-- Method `exportResults`, lines 548-560: the content is the value of the field `#exportData`. -/
def exportResults (t : Tester) : Download :=
  { data := t.exportData, date := t.now }

/-- Method `toggleHighContrast`, lines 27-30; the status is the default `'info'` of `logResult`. -/
def toggleHighContrast (t : Tester) : Tester :=
  logResult { t with highContrast := !t.highContrast }
    "contrastToggle" "High contrast mode toggled successfully" "info"

/-! ## The orchestrator -/

/-- The first statement of `runAllTests`, lines 33-34. -/
def resetRun (t : Tester) : Tester :=
  { t with results := [], startTime := t.now }

/-- Method `runAllTests` from its call to its first suspension, lines 33-45. -/
def runAllTestsPart1 (env : Env) : Tester → Outcome :=
  runSteps
    [ ok resetRun,
      testResolution env,
      ok testRefreshRate,
      ok (testContrast env),
      ok testFontRendering,
      ok (testBasicJavaScript env),
      ok (testES6Features env),
      ok testAsyncSupportStart ]

/-- Method `runAllTests` from the resumption of `testAsyncSupport` to the second suspension,
lines 45-62. -/
def runAllTestsPart2 (env : Env) : Tester → Outcome :=
  runSteps
    [ ok testAsyncSupportResume,
      ok testPromiseSupport,
      testFlexbox env,
      testCSSGrid env,
      testAnimations env,
      testImageSupport env,
      ok (testSVGSupport env),
      ok (testFormControls env),
      ok (testStorage env),
      ok (testFetchAPIStart env) ]

/-- Method `runAllTests` after `await this.testFetchAPI()`, lines 63-71. -/
def runAllTestsPart3 (env : Env) : Tester → Outcome :=
  runSteps
    [ ok (testGeolocation env),
      ok (testRenderingPerformance env),
      ok (testMemoryUsage env),
      ok generateSummary,
      ok (updateExportData env) ]

/-- The state after a part of `runAllTests`: the run goes on to `next`, or its promise is
rejected. -/
def settle (next : Phase) : Outcome → Tester
  | .done t => { t with phase := next }
  | .threw e t => { t with phase := .rejected e }

/-- One job of the microtask queue. -/
def runMicro (env : Env) (m : Micro) (t : Tester) : Tester :=
  match m with
  | .promiseThen => promiseThen t
  | .resumeAfterFetch =>
    if t.phase = .awaitFetch then settle .finished (runAllTestsPart3 env t) else t

/-- The microtask checkpoint after a task: the queued jobs run in order. No job of this
program queues another one. -/
def runMicrotasks (env : Env) (t : Tester) : Tester :=
  t.microtasks.foldl (fun s m => runMicro env m s) { t with microtasks := [] }

/-- A call of `runAllTests()` as one task: the first part, then the microtask
checkpoint. -/
def runAllTests (env : Env) (t : Tester) : Tester :=
  runMicrotasks env (settle .awaitTimer (runAllTestsPart1 env t))

/-- The events the handlers of `setupTouchTest` wait for. -/
inductive TouchEvent where
  /-- A `touchstart` on the touch area. -/
  | touchstart
  /-- A `click` on the touch area. -/
  | click
  /-- The 5-second timer fires. -/
  | graceTimer
  deriving DecidableEq, Repr

/-- The handler of a touch-area event. -/
def onTouchEvent (env : Env) (t : Tester) : TouchEvent → Tester
  | .touchstart => onTouchstart t
  | .click => onClick t
  | .graceTimer => onGraceTimer env t

/-- What the browser does next. -/
inductive Event where
  /-- The clock advances by `ms` milliseconds. -/
  | advance (ms : Nat)
  /-- An animation frame: the registered callbacks run. -/
  | frame
  /-- The 10 ms timer of `testAsyncSupport` fires. -/
  | timer
  /-- The request of `testFetchAPI` settles. -/
  | fetchSettled (r : Except String String)
  /-- An event of the touch probe. -/
  | touchArea (e : TouchEvent)
  /-- A click on the button `#toggleContrast`. -/
  | toggleContrast

/-- The task run for an event, before the microtask checkpoint. -/
def task (env : Env) (t : Tester) : Event → Tester
  | .advance ms => { t with now := t.now + ms }
  | .frame => t.rafCallbacks.foldl (fun s c => countFrames c s) { t with rafCallbacks := [] }
  | .timer =>
    if t.phase = .awaitTimer ∧ t.timerDue ≤ t.now then
      settle .awaitFetch (runAllTestsPart2 env t)
    else t
  | .fetchSettled r =>
    if t.phase = .awaitFetch ∧ env.fetchAvailable = true then
      settle .finished (runAllTestsPart3 env (testFetchAPIResume r t))
    else t
  | .touchArea e => onTouchEvent env t e
  | .toggleContrast => toggleHighContrast t

/-- One turn of the event loop: the task, then the microtask checkpoint. -/
def step (env : Env) (t : Tester) (e : Event) : Tester :=
  runMicrotasks env (task env t e)

/-- The state after a sequence of events. -/
def exec (env : Env) (t : Tester) (events : List Event) : Tester :=
  events.foldl (step env) t

/-! ## Sample environments -/

/-- A desktop browser showing the dashboard page: every element is present and every
feature works. -/
def Env.typical : Env :=
  { screenWidth := 1920, screenHeight := 1080, availWidth := 1920, availHeight := 1040,
    colorDepth := 24, pixelDepth := 24, innerWidth := 1280, innerHeight := 720,
    dprNum := 1, dprDen := 1, userAgent := "Mozilla/5.0",
    resolutionDetails := true, contrastSamples := 5,
    basicJs := .ok { arrayCheck := true, objectCheck := true, functionCheck := true,
                     jsonCheck := true },
    es6 := .ok { templateLiterals := true, destructuring := true, spreadOperator := true,
                 classes := true, letConst := true },
    flexDemo := some "flex", gridDemo := some "grid", animationDemo := some "pulse",
    canvas := .alpha 255, svg := some "http://www.w3.org/2000/svg",
    formControls := [{ kind := .text, sticks := true, throws := false },
                     { kind := .checkbox, sticks := true, throws := false },
                     { kind := .range, sticks := true, throws := false },
                     { kind := .select, sticks := true, throws := false }],
    localStorage := .readBack true false, sessionStorage := .readBack true false,
    cookies := .readBack true false,
    fetchAvailable := true, geolocation := true, renderNum := 3, renderDen := 1,
    memory := some (20000000, 4000000000), hasTouchCapability := false }

/-- The same page without the element `.flex-demo`. -/
def Env.noFlexDemo : Env :=
  { Env.typical with flexDemo := none }

/-- The status recorded under an id; `none` when there is no entry or it has no status. -/
def Tester.statusOf (t : Tester) (testId : String) : Option String :=
  (t.results.get testId).bind Value.status

/-- The message recorded under an id. -/
def Tester.messageOf (t : Tester) (testId : String) : Option String :=
  match t.results.get testId with
  | some (.probeResult m _ _) => some m
  | _ => none

/-- The write-then-read-back check of a storage mechanism succeeded: write and read-back
returned and the value read is the value written. -/
def StoreOutcome.succeeded : StoreOutcome → Bool
  | .readBack true _ => true
  | _ => false

/-- The four status tags. -/
def statusTags : List String := ["pass", "partial", "fail", "info"]

/-- The property names written by the battery of `runAllTests`, apart from `refreshTest`,
which is written from an animation frame. -/
def batteryIds : List String :=
  ["resolutionTest", "resolutionData", "contrastTest", "contrastLevels", "fontTest",
   "jsBasicTest", "es6Test", "asyncTest", "promiseTest", "flexboxTest", "gridTest",
   "animationTest", "imageTest", "svgTest", "formTest", "storageTest", "fetchTest",
   "geolocationTest", "renderTest", "memoryTest"]

/-- Every entry other than the two auxiliary entries `resolutionData` and
`contrastLevels` is a ProbeResult. -/
def WellFormed (r : Registry) : Prop :=
  ∀ kv ∈ r, kv.1 = "resolutionData" ∨ kv.1 = "contrastLevels" ∨ kv.2.isProbeResult = true

/-- Whether the registry has a property of this name. -/
def Registry.has (r : Registry) (k : String) : Bool :=
  (r.get k).isSome

/-- What a piece of the battery leaves alone: the touch probe, the clock, the start time,
the frame callbacks, every property that is not a battery id; it removes no property and
keeps the registry well formed. -/
structure Frame (t t' : Tester) : Prop where
  touchSupported : t'.touchSupported = t.touchSupported
  touched : t'.touched = t.touched
  now : t'.now = t.now
  startTime : t'.startTime = t.startTime
  rafCallbacks : t'.rafCallbacks = t.rafCallbacks
  get : ∀ k, k ∉ batteryIds → t'.results.get k = t.results.get k
  mono : ∀ k, t.results.has k = true → t'.results.has k = true
  wf : WellFormed t.results → WellFormed t'.results

/-- A statement of the battery: it respects `Frame`, and when it returns the registry has
the properties `ids` and the microtask queue has grown by `queued`. -/
def Logs (ids : List String) (queued : List Micro) (p : Tester → Outcome) : Prop :=
  ∀ t, Frame t (p t).state
    ∧ ∀ u, p t = .done u →
        (∀ k ∈ ids, u.results.has k = true) ∧ u.microtasks = t.microtasks ++ queued

/-- The property `testFetchAPI` writes before it returns or suspends. -/
def fetchStartIds (env : Env) : List String :=
  if env.fetchAvailable then [] else ["fetchTest"]

/-- The job `testFetchAPI` leaves in the microtask queue before it returns or suspends. -/
def fetchQueued (env : Env) : List Micro :=
  if env.fetchAvailable then [] else [Micro.resumeAfterFetch]

/-- The events that can record a result after a run has produced its summary without
starting a new run: time passing, animation frames, touch-area events and the contrast
toggle. -/
def Event.isLate : Event → Bool
  | .advance _ => true
  | .frame => true
  | .timer => false
  | .fetchSettled _ => false
  | .touchArea _ => true
  | .toggleContrast => true

/-- A run of the typical page that completes 12 ms after its start. -/
def quickRun : List Event :=
  [.advance 10, .timer, .advance 2, .fetchSettled (.ok "hello")]

/-- The properties written before the first suspension of `runAllTests`. -/
def part1Ids : List String :=
  ["resolutionTest", "resolutionData", "contrastTest", "contrastLevels", "fontTest",
   "jsBasicTest", "es6Test"]

/-- The properties written between the first and the second suspension of `runAllTests`,
the microtask checkpoint at the second suspension included. -/
def part2Ids : List String :=
  ["asyncTest", "promiseTest", "flexboxTest", "gridTest", "animationTest", "imageTest",
   "svgTest", "formTest", "storageTest"]

/-- The properties written after the second suspension of `runAllTests`, and `fetchTest`. -/
def part3Ids : List String :=
  ["fetchTest", "geolocationTest", "renderTest", "memoryTest"]

/-- What holds between the turns of the event loop during and after a run of
`runAllTests` that started at clock reading `s` with no frame callback of an earlier run
pending. -/
structure RunInv (s : Nat) (t : Tester) : Prop where
  startTime : t.startTime = s
  clock : s ≤ t.now
  closures : ∀ c ∈ t.rafCallbacks, c.startTime = s
  early : t.now < s + 2000 → t.results.get "refreshTest" = none
  queue : t.microtasks = []
  part1 : t.phase = .awaitTimer ∨ t.phase = .awaitFetch → ∀ k ∈ part1Ids, t.results.has k = true
  part2 : t.phase = .awaitFetch → ∀ k ∈ part2Ids, t.results.has k = true
  done : t.phase = .finished →
    ∃ snap, t.exportData = some snap
      ∧ t.summaryContent = some (summaryCounts snap.results)
      ∧ snap.summary = summaryCounts snap.results
      ∧ (∀ k ∈ batteryIds, snap.results.has k = true)
      ∧ (snap.timestamp < s + 2000 → snap.results.get "refreshTest" = none)

/-- The state after the `.then` callback of `testPromiseSupport` has run at the microtask
checkpoint of the second suspension, from the state `u` in which the second part of
`runAllTests` returned. -/
def afterPromise (u : Tester) : Tester :=
  promiseThen { u with phase := .awaitFetch, microtasks := [] }

/-- The typical page with a 4 GiB heap limit of which 3 435 700 000 bytes are used. -/
def Env.largeHeap : Env :=
  { Env.typical with memory := some (3435700000, 4294967296) }

/-- The serialization round-trip check fails, the three other checks succeed. -/
def BasicChecks.serializationFails : BasicChecks :=
  { arrayCheck := true, objectCheck := true, functionCheck := true, jsonCheck := false }

/-- The number of checks that succeeded. -/
def BasicChecks.succeeded (c : BasicChecks) : Nat :=
  c.arrayCheck.toNat + c.objectCheck.toNat + c.functionCheck.toNat + c.jsonCheck.toNat

/-- The events of a run of `runAllTests` itself: time passing, animation frames, the
timer of `testAsyncSupport` and the settling of the request of `testFetchAPI`. -/
def Event.isRun : Event → Bool
  | .advance _ => true
  | .frame => true
  | .timer => true
  | .fetchSettled _ => true
  | .touchArea _ => false
  | .toggleContrast => false

/-- A run of the typical page with its frame-counting tail: the summary after 12 ms, the
frame callback that ends the 2-second window after 2012 ms. -/
def fullRun : List Event :=
  quickRun ++ [.advance 2000, .frame]

/-- The run has reached one of its two suspensions or has finished. -/
def Tester.active (t : Tester) : Prop :=
  t.phase = .awaitTimer ∨ t.phase = .awaitFetch ∨ t.phase = .finished

/-- What holds between the turns of the event loop of a run of `runAllTests` under its own
events: only battery ids and `refreshTest` are recorded, a finished run has recorded every
battery id, and a run that got past its first part has recorded `refreshTest` once no frame
callback is pending. -/
structure TailInv (t : Tester) : Prop where
  only : ∀ k, t.results.has k = true → k ∈ batteryIds ∨ k = "refreshTest"
  all : t.phase = .finished → ∀ k ∈ batteryIds, t.results.has k = true
  refresh : t.active → t.rafCallbacks = [] → t.results.has "refreshTest" = true

/-- The typical page in a browser without `fetch`. -/
def Env.noFetch : Env :=
  { Env.typical with fetchAvailable := false }

/-- A run with its frame-counting tail in a browser without `fetch`: the summary is
produced in the task of the timer, 10 ms after the start. -/
def noFetchRun : List Event :=
  [.advance 10, .timer, .advance 2000, .frame]

/-! ## The static file server (`src/server.js`) -/

/-- The backslash character. -/
def backslash : Char := Char.ofNat 92

/-- The segments of a path between its `/` separators. -/
def splitSlash : List Char → List (List Char)
  | [] => [[]]
  | c :: rest =>
    if c = '/' then [] :: splitSlash rest
    else
      match splitSlash rest with
      | [] => [[c]]
      | seg :: segs => (c :: seg) :: segs

/-- The segments joined with `/`. -/
def joinSlash : List (List Char) → List Char
  | [] => []
  | [seg] => seg
  | seg :: rest => seg ++ '/' :: joinSlash rest

/-- One segment met by `normalizeString` of Node's `path` module, acting on the segments
kept so far (the last one first): an empty segment and `.` are dropped, `..` removes the
last kept segment unless there is none or it is `..` itself, in which case `..` is kept
when the path may climb above its root. -/
def pushSegment (allowAboveRoot : Bool) (kept : List (List Char)) (seg : List Char) :
    List (List Char) :=
  if seg = [] ∨ seg = ['.'] then kept
  else if seg = ['.', '.'] then
    match kept with
    | [] => if allowAboveRoot then [seg] else []
    | top :: below =>
      if top = ['.', '.'] then (if allowAboveRoot then seg :: kept else kept) else below
  else seg :: kept

/-- The function `normalizeString(path, allowAboveRoot, '/', isPosixPathSeparator)` of
Node's `path` module. -/
def normalizeString (path : List Char) (allowAboveRoot : Bool) : List Char :=
  joinSlash (((splitSlash path).foldl (pushSegment allowAboveRoot) []).reverse)

/-- The function `path.posix.normalize` of Node's `path` module. -/
def normalize (path : List Char) : List Char :=
  if path = [] then ['.']
  else
    let isAbsolute := path.head? = some '/'
    let trailingSeparator := path.getLast? = some '/'
    let res := normalizeString path (!decide isAbsolute)
    if res = [] then
      if isAbsolute then ['/'] else if trailingSeparator then ['.', '/'] else ['.']
    else
      let res := if trailingSeparator then res ++ ['/'] else res
      if isAbsolute then '/' :: res else res

/-- The replacement `.replace(/^(\.\.[\/\\])+/, '')` of line 44: every leading `..` that
is followed by a slash or a backslash is removed together with that separator. -/
def stripLeadingDotDot : List Char → List Char
  | '.' :: '.' :: c :: rest =>
    if c = '/' ∨ c = backslash then stripLeadingDotDot rest else '.' :: '.' :: c :: rest
  | path => path

/-- The variable `filePath` of lines 39-42 for the request URL. -/
def filePathOf (url : List Char) : List Char :=
  if '.' :: url = ['.', '/'] then "./index.html".data else '.' :: url

/-- The constant `safePath` of line 45 for the request URL. -/
def safePath (url : String) : String :=
  String.mk (stripLeadingDotDot (normalize (filePathOf url.data)))

/-- The path is absolute: it starts with `/`. -/
def isAbsolutePath (path : String) : Bool :=
  path.data.head? = some '/'

/-- The path has a segment `..`. -/
def hasDotDotSegment (path : String) : Bool :=
  (splitSlash path.data).contains ['.', '.']

/-! ## The frames of the refresh-rate window -/

/-- The number of animation frames among the events. -/
def frameCount : List Event → Nat
  | [] => 0
  | .frame :: es => frameCount es + 1
  | _ :: es => frameCount es

/-- The time that passes during the events, in milliseconds. -/
def advanceSum : List Event → Nat
  | [] => 0
  | .advance ms :: es => ms + advanceSum es
  | _ :: es => advanceSum es

/-- Animation frames at a steady pace: `count` frames, `gap` milliseconds before each. -/
def framesEvery (gap : Nat) : Nat → List Event
  | 0 => []
  | count + 1 => .advance gap :: .frame :: framesEvery gap count

/-- What the frame-counting probe has reached: its one closure is waiting with `frames`
frames counted, the clock stands `elapsed` ms after the start of the probe, and the
entry `refreshTest` is the one the registry held when the probe started. -/
structure Counting (start : Nat) (before : Option Value) (frames elapsed : Nat)
    (t : Tester) : Prop where
  closure : t.rafCallbacks = [{ startTime := start, frames := frames }]
  clock : t.now = start + elapsed
  entry : t.results.get "refreshTest" = before

/-! ## The order of recording -/

/-- The property names after an assignment to `k`: a new name goes last. -/
def addKey (keys : List String) (k : String) : List String :=
  if k ∈ keys then keys else keys ++ [k]

/-- The battery ids among the property names of the registry, in insertion order. Since a
run starts from the empty registry, this is the order in which the run recorded them. -/
def batteryKeys (r : Registry) : List String :=
  r.keys.filter fun k => decide (k ∈ batteryIds)

/-- The ids of the probes between the two suspensions of `runAllTests` that record before
they return, in their declared order. -/
def part2Order : List String :=
  ["asyncTest", "flexboxTest", "gridTest", "animationTest", "imageTest", "svgTest",
   "formTest", "storageTest"]

/-- The ids of the probes after the second suspension, in their declared order. -/
def part3Order : List String :=
  ["geolocationTest", "renderTest", "memoryTest"]

/-- The order in which a run records the battery ids: the declared order of the probes,
except that `promiseTest` comes after the probes up to `testStorage`, and after
`fetchTest` too when `fetch` is missing. -/
def recordedOrder (env : Env) : List String :=
  part1Ids ++ part2Order
    ++ (if env.fetchAvailable then ["promiseTest", "fetchTest"] else ["fetchTest", "promiseTest"])
    ++ part3Order

/-- A statement that, when it returns, has assigned the properties `ids` in this order. -/
def Records (ids : List String) (p : Tester → Outcome) : Prop :=
  ∀ t u, p t = .done u → u.results.keys = ids.foldl addKey t.results.keys

/-- The order in which the run has recorded so far, between the turns of the event loop. -/
structure OrderInv (env : Env) (t : Tester) : Prop where
  part1 : t.phase = .awaitTimer → batteryKeys t.results = part1Ids
  part2 : t.phase = .awaitFetch →
    batteryKeys t.results = part1Ids ++ part2Order ++ ["promiseTest"]
  done : t.phase = .finished →
    ∃ snap, t.exportData = some snap ∧ batteryKeys snap.results = recordedOrder env

/-! ## Lemmas on the registry -/

theorem get_assign (r : Registry) (k k' : String) (v : Value) :
    (r.assign k v).get k' = if k = k' then some v else r.get k' := by
  induction r with
  | nil => simp [Registry.assign, Registry.get]
  | cons kv rest ih =>
    obtain ⟨a, w⟩ := kv
    by_cases h : a = k
    · subst h
      by_cases h' : a = k' <;> simp [Registry.assign, Registry.get, h']
    · by_cases h' : a = k'
      · subst h'
        simp [Registry.assign, Registry.get, h, Ne.symm h]
      · simp [Registry.assign, Registry.get, h, h', ih]

theorem get_assign_self (r : Registry) (k : String) (v : Value) :
    (r.assign k v).get k = some v := by
  simp [get_assign]

theorem get_assign_of_ne (r : Registry) (k k' : String) (v : Value) (h : k ≠ k') :
    (r.assign k v).get k' = r.get k' := by
  simp [get_assign, h]

theorem mem_assign (r : Registry) (k : String) (v : Value) (x : String × Value)
    (h : x ∈ r.assign k v) : x = (k, v) ∨ x ∈ r := by
  induction r with
  | nil => simpa [Registry.assign] using h
  | cons kv rest ih =>
    obtain ⟨a, w⟩ := kv
    by_cases ha : a = k
    · simp only [Registry.assign, ha, if_true, List.mem_cons] at h
      rcases h with h | h
      · exact Or.inl h
      · exact Or.inr (List.mem_cons_of_mem _ h)
    · simp only [Registry.assign, ha, if_false, List.mem_cons] at h
      rcases h with h | h
      · exact Or.inr (h ▸ List.mem_cons_self _ _)
      · rcases ih h with h | h
        · exact Or.inl h
        · exact Or.inr (List.mem_cons_of_mem _ h)

theorem countStatus_cons (kv : String × Value) (r : Registry) (tag : String) :
    countStatus (kv :: r) tag
      = countStatus r tag + (if kv.2.status = some tag then 1 else 0) := by
  by_cases h : kv.2.status = some tag <;> simp [countStatus, List.filter_cons, h]

theorem counts_le_length (r : Registry) :
    countStatus r "pass" + countStatus r "partial" + countStatus r "fail" ≤ r.length := by
  induction r with
  | nil => simp [countStatus]
  | cons kv rest ih =>
    rw [countStatus_cons, countStatus_cons, countStatus_cons, List.length_cons]
    rcases hs : kv.2.status with _ | s
    · simp
      omega
    · by_cases h1 : s = "pass"
      · subst h1
        simp
        omega
      · by_cases h2 : s = "partial"
        · subst h2
          simp
          omega
        · by_cases h3 : s = "fail"
          · subst h3
            simp
            omega
          · simp [h1, h2, h3]
            omega

/-! ## Summary counts -/

/-- C3. For every registry state, `generateSummary` renders and `updateExportData` stores
the same counts; `totalTests` is the number of entries of the registry, the three other
counts are the numbers of entries with status pass, partial and fail, and
their sum is at most `totalTests`. -/
theorem summary_counts_reconcile (env : Env) (t : Tester) :
    (generateSummary t).summaryContent = some (summaryCounts t.results)
    ∧ ((updateExportData env t).exportData.map fun snap => snap.summary)
        = some (summaryCounts t.results)
    ∧ (summaryCounts t.results).totalTests = t.results.length
    ∧ (summaryCounts t.results).passedTests
        = (t.results.filter fun kv => kv.2.status == some "pass").length
    ∧ (summaryCounts t.results).partialTests
        = (t.results.filter fun kv => kv.2.status == some "partial").length
    ∧ (summaryCounts t.results).failedTests
        = (t.results.filter fun kv => kv.2.status == some "fail").length
    ∧ (summaryCounts t.results).passedTests + (summaryCounts t.results).partialTests
        + (summaryCounts t.results).failedTests ≤ (summaryCounts t.results).totalTests := by
  refine ⟨rfl, rfl, ?_, rfl, rfl, rfl, ?_⟩
  · simp [summaryCounts, Registry.keys]
  · have h := counts_le_length t.results
    simpa [summaryCounts, Registry.keys] using h

/-! ## Refresh rate -/

theorem mathRound_two (n : Nat) : mathRound n 2 = (n + 1) / 2 := by
  unfold mathRound
  omega

theorem mathRound_eq_floor (n d : Nat) (hd : 0 < d) :
    ((mathRound n d : Nat) : ℤ) = ⌊(n : ℚ) / d + 1 / 2⌋ := by
  have hd' : (d : ℚ) ≠ 0 := by exact_mod_cast hd.ne'
  have h : (n : ℚ) / d + 1 / 2 = ((2 * n + d : ℕ) : ℚ) / ((2 * d : ℕ) : ℚ) := by
    push_cast
    field_simp
    ring
  rw [h, mathRound, ← Int.natCast_floor_eq_floor (by positivity), Nat.floor_div_eq_div]

theorem half_gt_iff (n k : Nat) : (n : ℚ) / 2 > k ↔ 2 * k < n := by
  rw [gt_iff_lt, lt_div_iff₀ (by norm_num : (0 : ℚ) < 2)]
  constructor
  · intro h
    have h' : ((k * 2 : ℕ) : ℚ) < (n : ℚ) := by exact_mod_cast h
    have := Nat.cast_lt.mp h'
    omega
  · intro h
    have h' : k * 2 < n := by omega
    exact_mod_cast h'

theorem refreshStatus_spec (n : Nat) :
    refreshStatus (refreshFps n)
      = if (n : ℚ) / 2 > 30 then "pass" else if (n : ℚ) / 2 > 10 then "partial" else "fail" := by
  have h30 := half_gt_iff n 30
  have h10 := half_gt_iff n 10
  simp only [Nat.cast_ofNat] at h30 h10
  simp only [refreshStatus, refreshFps, mathRound_two, h30, h10]
  by_cases a : 2 * 30 < n
  · have : (n + 1) / 2 > 30 := by omega
    simp [a, this]
  · have a' : ¬ (n + 1) / 2 > 30 := by omega
    by_cases b : 2 * 10 < n
    · have : (n + 1) / 2 > 10 := by omega
      simp [a, a', b, this]
    · have b' : ¬ (n + 1) / 2 > 10 := by omega
      simp [a, a', b, b']

theorem statusOf_logResult (t : Tester) (testId message status k : String) :
    (logResult t testId message status).statusOf k
      = if testId = k then some status else t.statusOf k := by
  unfold Tester.statusOf logResult
  simp only [get_assign]
  split <;> simp [Value.status]

theorem messageOf_logResult (t : Tester) (testId message status k : String) :
    (logResult t testId message status).messageOf k
      = if testId = k then some message else t.messageOf k := by
  unfold Tester.messageOf logResult
  by_cases h : testId = k <;> simp [get_assign, h]

/-! ## Resolution -/

theorem displayCategory_mem (w h : Nat) :
    displayCategory w h ∈ ["4K+ Display", "2K Display", "Full HD", "HD Display",
      "Standard Display", "Low Resolution"] := by
  unfold displayCategory
  simp only []
  split_ifs <;> simp

/-- C10. On a page that has the element `.resolution-details`, `testResolution` returns
and records under `resolutionTest` the status info and a message that starts with the
category of the screen. The category depends on the pixel count `w * h` only: at least
3840*2160 is 4K+, else at least 2560*1440 is 2K, else at least 1920*1080 is Full HD, else
at least 1366*768 is HD, else at least 1024*768 is Standard, else Low Resolution. It is one
of these six and never 'Unknown'. -/
theorem resolution_categorization (env : Env) (t : Tester)
    (hpage : env.resolutionDetails = true) :
    (∃ t', testResolution env t = .done t'
      ∧ t'.statusOf "resolutionTest" = some "info"
      ∧ t'.messageOf "resolutionTest"
          = some (displayCategory env.screenWidth env.screenHeight ++ ": "
              ++ toString env.screenWidth ++ "×" ++ toString env.screenHeight ++ " ("
              ++ toString (mathRound (env.screenWidth * env.screenHeight) 1000000) ++ "MP)"))
    ∧ (3840 * 2160 ≤ env.screenWidth * env.screenHeight →
        displayCategory env.screenWidth env.screenHeight = "4K+ Display")
    ∧ (2560 * 1440 ≤ env.screenWidth * env.screenHeight →
        env.screenWidth * env.screenHeight < 3840 * 2160 →
        displayCategory env.screenWidth env.screenHeight = "2K Display")
    ∧ (1920 * 1080 ≤ env.screenWidth * env.screenHeight →
        env.screenWidth * env.screenHeight < 2560 * 1440 →
        displayCategory env.screenWidth env.screenHeight = "Full HD")
    ∧ (1366 * 768 ≤ env.screenWidth * env.screenHeight →
        env.screenWidth * env.screenHeight < 1920 * 1080 →
        displayCategory env.screenWidth env.screenHeight = "HD Display")
    ∧ (1024 * 768 ≤ env.screenWidth * env.screenHeight →
        env.screenWidth * env.screenHeight < 1366 * 768 →
        displayCategory env.screenWidth env.screenHeight = "Standard Display")
    ∧ (env.screenWidth * env.screenHeight < 1024 * 768 →
        displayCategory env.screenWidth env.screenHeight = "Low Resolution")
    ∧ displayCategory env.screenWidth env.screenHeight
        ∈ ["4K+ Display", "2K Display", "Full HD", "HD Display", "Standard Display",
           "Low Resolution"]
    ∧ displayCategory env.screenWidth env.screenHeight ≠ "Unknown"
    ∧ displayCategory 3840 2160 = "4K+ Display"
    ∧ displayCategory 1920 1080 = "Full HD"
    ∧ displayCategory 800 600 = "Low Resolution" := by
  refine ⟨?_, ?_, ?_, ?_, ?_, ?_, ?_, displayCategory_mem _ _, ?_, by decide, by decide,
    by decide⟩
  · refine ⟨_, by rw [testResolution, if_pos hpage], ?_, ?_⟩
    · simp [Tester.statusOf, logResult, get_assign, Value.status]
    · simp [Tester.messageOf, logResult, get_assign, resolutionMessage]
  · intro h1
    simp only [displayCategory]
    rw [if_pos h1]
  · intro h1 h2
    simp only [displayCategory]
    rw [if_neg (by omega), if_pos h1]
  · intro h1 h2
    simp only [displayCategory]
    rw [if_neg (by omega), if_neg (by omega), if_pos h1]
  · intro h1 h2
    simp only [displayCategory]
    rw [if_neg (by omega), if_neg (by omega), if_neg (by omega), if_pos h1]
  · intro h1 h2
    simp only [displayCategory]
    rw [if_neg (by omega), if_neg (by omega), if_neg (by omega), if_neg (by omega), if_pos h1]
  · intro h1
    simp only [displayCategory]
    rw [if_neg (by omega), if_neg (by omega), if_neg (by omega), if_neg (by omega),
      if_neg (by omega)]
  · have h := displayCategory_mem env.screenWidth env.screenHeight
    intro hu
    rw [hu] at h
    revert h
    decide

/-- Witness of C10: the typical page, a 1920 by 1080 screen. -/
theorem resolution_categorization_witness :
    Env.typical.resolutionDetails = true
    ∧ (∃ t', testResolution Env.typical Tester.fresh = .done t'
        ∧ t'.statusOf "resolutionTest" = some "info"
        ∧ t'.messageOf "resolutionTest" = some "Full HD: 1920×1080 (2MP)") := by
  have h := (resolution_categorization Env.typical Tester.fresh rfl).1
  refine ⟨rfl, ?_⟩
  obtain ⟨t', h1, h2, h3⟩ := h
  exact ⟨t', h1, h2, by rw [h3]; decide⟩

/-! ## Storage -/

theorem tryStore_eq (name : String) (o : StoreOutcome) (tests : List String) :
    tryStore name o tests = tests ++ (if o.succeeded then [name] else []) := by
  rcases o with _ | _ | ⟨_ | _, c⟩ <;> simp [tryStore, StoreOutcome.succeeded]

/-- C8. For every behaviour of the three storage mechanisms (the write throws, the
read-back throws, or both return with a matching or a wrong value, the removal after the
check throwing or not), `testStorage` tries all three: the message lists exactly the
mechanisms whose check succeeded, in the order localStorage, sessionStorage, cookies, and
the status is pass if and only if at least one succeeded, otherwise fail. When
localStorage throws and the two others succeed the result is pass with
"Storage supported: sessionStorage, cookies". -/
theorem storage_probe (env : Env) (t : Tester) :
    storageTests env
      = (([("localStorage", env.localStorage), ("sessionStorage", env.sessionStorage),
            ("cookies", env.cookies)].filter fun p => p.2.succeeded).map Prod.fst)
    ∧ (testStorage env t).messageOf "storageTest"
        = some ("Storage supported: " ++ String.intercalate ", " (storageTests env))
    ∧ ((testStorage env t).statusOf "storageTest" = some "pass"
        ↔ (env.localStorage.succeeded = true ∨ env.sessionStorage.succeeded = true
            ∨ env.cookies.succeeded = true))
    ∧ ((testStorage env t).statusOf "storageTest" = some "fail"
        ↔ ¬ (env.localStorage.succeeded = true ∨ env.sessionStorage.succeeded = true
            ∨ env.cookies.succeeded = true))
    ∧ storageMessage (tryStore "cookies" (.readBack true false)
          (tryStore "sessionStorage" (.readBack true false)
            (tryStore "localStorage" .writeThrows [])))
        = "Storage supported: sessionStorage, cookies"
    ∧ storageStatus (tryStore "cookies" (.readBack true false)
          (tryStore "sessionStorage" (.readBack true false)
            (tryStore "localStorage" .writeThrows [])))
        = "pass" := by
  have hlist : storageTests env
      = (([("localStorage", env.localStorage), ("sessionStorage", env.sessionStorage),
            ("cookies", env.cookies)].filter fun p => p.2.succeeded).map Prod.fst) := by
    simp only [storageTests, tryStore_eq]
    rcases h1 : env.localStorage.succeeded <;> rcases h2 : env.sessionStorage.succeeded
      <;> rcases h3 : env.cookies.succeeded <;> simp [List.filter, h1, h2, h3]
  refine ⟨hlist, ?_, ?_, ?_, by decide, by decide⟩
  · simp [testStorage, messageOf_logResult, storageMessage]
  · simp only [testStorage, statusOf_logResult, if_true, storageStatus, storageTests,
      tryStore_eq]
    cases env.localStorage.succeeded <;> cases env.sessionStorage.succeeded
      <;> cases env.cookies.succeeded <;> simp
  · simp only [testStorage, statusOf_logResult, if_true, storageStatus, storageTests,
      tryStore_eq]
    cases env.localStorage.succeeded <;> cases env.sessionStorage.succeeded
      <;> cases env.cookies.succeeded <;> simp

/-! ## Frame lemmas for the battery -/

theorem Frame.refl (t : Tester) : Frame t t :=
  ⟨rfl, rfl, rfl, rfl, rfl, fun _ _ => rfl, fun _ h => h, fun h => h⟩

theorem Frame.trans {a b c : Tester} (h1 : Frame a b) (h2 : Frame b c) : Frame a c :=
  ⟨h2.touchSupported.trans h1.touchSupported, h2.touched.trans h1.touched,
    h2.now.trans h1.now, h2.startTime.trans h1.startTime,
    h2.rafCallbacks.trans h1.rafCallbacks,
    fun k hk => (h2.get k hk).trans (h1.get k hk),
    fun k hk => h2.mono k (h1.mono k hk),
    fun h => h2.wf (h1.wf h)⟩

theorem has_assign (r : Registry) (k k' : String) (v : Value) :
    (r.assign k v).has k' = (decide (k = k') || r.has k') := by
  unfold Registry.has
  rw [get_assign]
  by_cases h : k = k' <;> simp [h]

theorem wf_assign (r : Registry) (k : String) (v : Value)
    (hv : k = "resolutionData" ∨ k = "contrastLevels" ∨ v.isProbeResult = true)
    (h : WellFormed r) : WellFormed (r.assign k v) := by
  intro kv hkv
  rcases mem_assign r k v kv hkv with h1 | h1
  · subst h1
    exact hv
  · exact h kv h1

theorem isProbeResult_of_tag (m s : String) (n : Nat) (hs : s ∈ statusTags) :
    (Value.probeResult m s n).isProbeResult = true := by
  simp only [statusTags, List.mem_cons, List.mem_singleton, List.not_mem_nil, or_false] at hs
  rcases hs with h | h | h | h <;> subst h <;> simp [Value.isProbeResult]

theorem frame_logResult (t : Tester) (testId message status : String)
    (hid : testId ∈ batteryIds) (hs : status ∈ statusTags) :
    Frame t (logResult t testId message status) := by
  refine ⟨rfl, rfl, rfl, rfl, rfl, ?_, ?_, ?_⟩
  · intro k hk
    have : testId ≠ k := fun h => hk (h ▸ hid)
    simp [logResult, get_assign, this]
  · intro k hk
    simp [logResult, has_assign, hk]
  · intro h
    exact wf_assign _ _ _ (Or.inr (Or.inr (isProbeResult_of_tag _ _ _ hs))) h

theorem has_logResult_self (t : Tester) (testId message status : String) :
    (logResult t testId message status).results.has testId = true := by
  simp [logResult, has_assign]

/-- A statement that throws without a change, or returns after one `logResult` with a
status tag, is a statement of the battery. -/
theorem logs_of_cases (p : Tester → Outcome) (testId : String) (hid : testId ∈ batteryIds)
    (h : ∀ t, (∃ e, p t = .threw e t)
      ∨ ∃ message status, status ∈ statusTags
          ∧ p t = .done (logResult t testId message status)) :
    Logs [testId] [] p := by
  intro t
  rcases h t with ⟨e, he⟩ | ⟨m, s, hs, hp⟩
  · rw [he]
    exact ⟨Frame.refl t, fun u hu => by cases hu⟩
  · rw [hp]
    refine ⟨frame_logResult t testId m s hid hs, ?_⟩
    intro u hu
    cases hu
    refine ⟨?_, by simp [logResult]⟩
    intro k hk
    simp only [List.mem_singleton] at hk
    subst hk
    exact has_logResult_self _ _ _ _

theorem logs_ok_log (f : Tester → Tester) (testId : String) (hid : testId ∈ batteryIds)
    (h : ∀ t, ∃ message status, status ∈ statusTags
      ∧ f t = logResult t testId message status) :
    Logs [testId] [] (ok f) := by
  apply logs_of_cases _ _ hid
  intro t
  obtain ⟨m, s, hs, hf⟩ := h t
  exact Or.inr ⟨m, s, hs, by simp [ok, hf]⟩

theorem logs_nil : Logs [] [] (runSteps []) := by
  intro t
  refine ⟨Frame.refl t, ?_⟩
  intro u hu
  simp only [runSteps, Outcome.done.injEq] at hu
  subst hu
  simp

theorem logs_cons {ids1 ids2 : List String} {q1 q2 : List Micro} {p : Tester → Outcome}
    {ps : List (Tester → Outcome)} (h1 : Logs ids1 q1 p) (h2 : Logs ids2 q2 (runSteps ps)) :
    Logs (ids1 ++ ids2) (q1 ++ q2) (runSteps (p :: ps)) := by
  intro t
  obtain ⟨f1, d1⟩ := h1 t
  rcases hp : p t with t' | ⟨e, t'⟩
  · rw [hp] at f1
    obtain ⟨f2, d2⟩ := h2 t'
    simp only [runSteps, hp]
    refine ⟨f1.trans f2, ?_⟩
    intro u hu
    obtain ⟨k1, m1⟩ := d1 t' hp
    obtain ⟨k2, m2⟩ := d2 u hu
    rw [hu] at f2
    refine ⟨?_, by rw [m2, m1, List.append_assoc]⟩
    intro k hk
    rcases List.mem_append.mp hk with h | h
    · exact f2.mono k (k1 k h)
    · exact k2 k h
  · rw [hp] at f1
    simp only [runSteps, hp]
    exact ⟨f1, fun u hu => by cases hu⟩

theorem logs_testResolution (env : Env) :
    Logs ["resolutionTest", "resolutionData"] [] (testResolution env) := by
  intro t
  unfold testResolution
  by_cases h : env.resolutionDetails = true
  · simp only [h, if_true, Outcome.state]
    have f1 := frame_logResult t "resolutionTest"
      (resolutionMessage env.screenWidth env.screenHeight) "info" (by decide) (by decide)
    refine ⟨⟨f1.touchSupported, f1.touched, f1.now, f1.startTime, f1.rafCallbacks,
      ?_, ?_, ?_⟩,
      ?_⟩
    · intro k hk
      have hne : "resolutionData" ≠ k := fun e => hk (e ▸ by decide)
      rw [get_assign_of_ne _ _ _ _ hne]
      exact f1.get k hk
    · intro k hk
      simp [has_assign, f1.mono k hk]
    · intro hw
      exact wf_assign _ _ _ (Or.inl rfl) (f1.wf hw)
    · intro u hu
      cases hu
      refine ⟨?_, by simp [logResult]⟩
      intro k hk
      simp only [List.mem_cons, List.mem_singleton, List.not_mem_nil, or_false] at hk
      rcases hk with hk | hk <;> subst hk <;> simp [has_assign, logResult]
  · simp only [h, Outcome.state]
    exact ⟨Frame.refl t, fun u hu => by simp at hu⟩

theorem logs_testContrast (env : Env) :
    Logs ["contrastTest", "contrastLevels"] [] (ok (testContrast env)) := by
  intro t
  simp only [ok, testContrast, Outcome.state]
  have f1 := frame_logResult t "contrastTest"
    "5 contrast levels tested. High contrast recommended for e-ink." "info"
    (by decide) (by decide)
  refine ⟨⟨f1.touchSupported, f1.touched, f1.now, f1.startTime, f1.rafCallbacks,
      ?_, ?_, ?_⟩,
    ?_⟩
  · intro k hk
    have hne : "contrastLevels" ≠ k := fun e => hk (e ▸ by decide)
    rw [get_assign_of_ne _ _ _ _ hne]
    exact f1.get k hk
  · intro k hk
    simp [has_assign, f1.mono k hk]
  · intro hw
    exact wf_assign _ _ _ (Or.inr (Or.inl rfl)) (f1.wf hw)
  · intro u hu
    cases hu
    refine ⟨?_, by simp [logResult]⟩
    intro k hk
    simp only [List.mem_cons, List.mem_singleton, List.not_mem_nil, or_false] at hk
    rcases hk with hk | hk <;> subst hk <;> simp [has_assign, logResult]

theorem ite_tag (c : Prop) [Decidable c] (a b : String) (ha : a ∈ statusTags)
    (hb : b ∈ statusTags) : (if c then a else b) ∈ statusTags := by
  split <;> assumption

theorem logs_testFontRendering : Logs ["fontTest"] [] (ok testFontRendering) :=
  logs_ok_log _ _ (by decide) fun _ =>
    ⟨_, _, ite_tag _ _ _ (by decide) (by decide), rfl⟩

theorem logs_testBasicJavaScript (env : Env) :
    Logs ["jsBasicTest"] [] (ok (testBasicJavaScript env)) := by
  apply logs_ok_log _ _ (by decide)
  intro t
  unfold testBasicJavaScript
  split
  · exact ⟨_, _, ite_tag _ _ _ (by decide) (by decide), rfl⟩
  · exact ⟨_, _, by decide, rfl⟩

theorem logs_testES6Features (env : Env) :
    Logs ["es6Test"] [] (ok (testES6Features env)) := by
  apply logs_ok_log _ _ (by decide)
  intro t
  unfold testES6Features
  split
  · exact ⟨_, _, ite_tag _ _ _ (by decide) (by decide), rfl⟩
  · exact ⟨_, _, by decide, rfl⟩

theorem logs_fieldUpdate (f : Tester → Tester) (queued : List Micro)
    (h : ∀ t, (f t).results = t.results ∧ (f t).touchSupported = t.touchSupported
      ∧ (f t).touched = t.touched ∧ (f t).now = t.now ∧ (f t).startTime = t.startTime
      ∧ (f t).rafCallbacks = t.rafCallbacks
      ∧ (f t).microtasks = t.microtasks ++ queued) :
    Logs [] queued (ok f) := by
  intro t
  obtain ⟨h1, h2, h3, h4, h5, h6, h7⟩ := h t
  refine ⟨⟨h2, h3, h4, h5, h6, fun k _ => by simp [ok, Outcome.state, h1],
    fun k hk => by simpa [ok, Outcome.state, h1] using hk,
    fun hw => by simpa [ok, Outcome.state, h1] using hw⟩, ?_⟩
  intro u hu
  simp only [ok, Outcome.done.injEq] at hu
  subst hu
  exact ⟨by simp, h7⟩

theorem logs_testAsyncSupportStart : Logs [] [] (ok testAsyncSupportStart) :=
  logs_fieldUpdate _ _ fun t => by simp [testAsyncSupportStart]

theorem logs_testAsyncSupportResume : Logs ["asyncTest"] [] (ok testAsyncSupportResume) :=
  logs_ok_log _ _ (by decide) fun _ => ⟨_, _, by decide, rfl⟩

theorem logs_testPromiseSupport : Logs [] [Micro.promiseThen] (ok testPromiseSupport) :=
  logs_fieldUpdate _ _ fun t => by simp [testPromiseSupport]

theorem logs_promiseThen : Logs ["promiseTest"] [] (ok promiseThen) :=
  logs_ok_log _ _ (by decide) fun _ => ⟨_, _, by decide, rfl⟩

theorem logs_testFlexbox (env : Env) : Logs ["flexboxTest"] [] (testFlexbox env) := by
  apply logs_of_cases _ _ (by decide)
  intro t
  unfold testFlexbox
  split
  · exact Or.inl ⟨_, rfl⟩
  · exact Or.inr ⟨_, _, ite_tag _ _ _ (by decide) (by decide), rfl⟩

theorem logs_testCSSGrid (env : Env) : Logs ["gridTest"] [] (testCSSGrid env) := by
  apply logs_of_cases _ _ (by decide)
  intro t
  unfold testCSSGrid
  split
  · exact Or.inl ⟨_, rfl⟩
  · exact Or.inr ⟨_, _, ite_tag _ _ _ (by decide) (by decide), rfl⟩

theorem logs_testAnimations (env : Env) : Logs ["animationTest"] [] (testAnimations env) := by
  apply logs_of_cases _ _ (by decide)
  intro t
  unfold testAnimations
  split
  · exact Or.inl ⟨_, rfl⟩
  · exact Or.inr ⟨_, _, ite_tag _ _ _ (by decide) (by decide), rfl⟩

theorem logs_testImageSupport (env : Env) : Logs ["imageTest"] [] (testImageSupport env) := by
  apply logs_of_cases _ _ (by decide)
  intro t
  unfold testImageSupport
  split
  · exact Or.inl ⟨_, rfl⟩
  · exact Or.inr ⟨_, _, by decide, rfl⟩
  · exact Or.inr ⟨_, _, by decide, rfl⟩
  · exact Or.inr ⟨_, _, ite_tag _ _ _ (by decide) (by decide), rfl⟩

theorem logs_testSVGSupport (env : Env) : Logs ["svgTest"] [] (ok (testSVGSupport env)) :=
  logs_ok_log _ _ (by decide) fun _ =>
    ⟨_, _, ite_tag _ _ _ (by decide) (by decide), rfl⟩

theorem logs_testFormControls (env : Env) :
    Logs ["formTest"] [] (ok (testFormControls env)) :=
  logs_ok_log _ _ (by decide) fun _ =>
    ⟨_, _, ite_tag _ _ _ (by decide) (by decide), rfl⟩

theorem logs_testStorage (env : Env) : Logs ["storageTest"] [] (ok (testStorage env)) :=
  logs_ok_log _ _ (by decide) fun _ =>
    ⟨_, _, ite_tag _ _ _ (by decide) (by decide), rfl⟩

theorem logs_testGeolocation (env : Env) :
    Logs ["geolocationTest"] [] (ok (testGeolocation env)) := by
  apply logs_ok_log _ _ (by decide)
  intro t
  unfold testGeolocation
  split
  · exact ⟨_, _, by decide, rfl⟩
  · exact ⟨_, _, by decide, rfl⟩

theorem logs_testRenderingPerformance (env : Env) :
    Logs ["renderTest"] [] (ok (testRenderingPerformance env)) := by
  apply logs_ok_log _ _ (by decide)
  intro t
  refine ⟨_, _, ?_, rfl⟩
  unfold renderStatus
  exact ite_tag _ _ _ (by decide) (ite_tag _ _ _ (by decide) (by decide))

theorem logs_testMemoryUsage (env : Env) :
    Logs ["memoryTest"] [] (ok (testMemoryUsage env)) := by
  apply logs_ok_log _ _ (by decide)
  intro t
  unfold testMemoryUsage
  split
  · exact ⟨_, _, ite_tag _ _ _ (by decide) (by decide), rfl⟩
  · exact ⟨_, _, by decide, rfl⟩

theorem logs_generateSummary : Logs [] [] (ok generateSummary) :=
  logs_fieldUpdate _ _ fun t => by simp [generateSummary]

theorem logs_updateExportData (env : Env) : Logs [] [] (ok (updateExportData env)) :=
  logs_fieldUpdate _ _ fun t => by simp [updateExportData]

theorem logs_testFetchAPIResume (r : Except String String) :
    Logs ["fetchTest"] [] (ok (testFetchAPIResume r)) := by
  apply logs_ok_log _ _ (by decide)
  intro t
  unfold testFetchAPIResume
  split
  · exact ⟨_, _, by decide, rfl⟩
  · exact ⟨_, _, by decide, rfl⟩

theorem logs_testFetchAPIStart (env : Env) :
    Logs (fetchStartIds env) (fetchQueued env) (ok (testFetchAPIStart env)) := by
  unfold fetchStartIds fetchQueued
  by_cases h : env.fetchAvailable = true
  · simp only [h, if_true]
    exact logs_fieldUpdate _ _ fun t => by simp [testFetchAPIStart, h]
  · simp only [h]
    intro t
    have f1 := frame_logResult t "fetchTest" "Fetch API not available" "fail"
      (by decide) (by decide)
    simp only [ok, testFetchAPIStart, h, Outcome.state]
    refine ⟨⟨f1.touchSupported, f1.touched, f1.now, f1.startTime, f1.rafCallbacks,
      f1.get, f1.mono, f1.wf⟩, ?_⟩
    intro u hu
    simp only [Bool.false_eq_true, if_false, Outcome.done.injEq] at hu
    subst hu
    refine ⟨?_, by simp [logResult]⟩
    intro k hk
    simp only [Bool.false_eq_true, if_false, List.mem_singleton] at hk
    subst hk
    simp [logResult, has_assign]

theorem Logs.weaken {ids ids' : List String} {q q' : List Micro} {p : Tester → Outcome}
    (h : Logs ids q p) (hids : ∀ k ∈ ids', k ∈ ids) (hq : q = q') : Logs ids' q' p := by
  subst hq
  intro t
  obtain ⟨f, d⟩ := h t
  exact ⟨f, fun u hu => ⟨fun k hk => (d u hu).1 k (hids k hk), (d u hu).2⟩⟩

/-- The statements of the first part of `runAllTests` after `testRefreshRate`. -/
theorem logs_part1_tail (env : Env) :
    Logs ["contrastTest", "contrastLevels", "fontTest", "jsBasicTest", "es6Test"] []
      (runSteps [ok (testContrast env), ok testFontRendering, ok (testBasicJavaScript env),
        ok (testES6Features env), ok testAsyncSupportStart]) :=
  (logs_cons (logs_testContrast env) (logs_cons logs_testFontRendering
    (logs_cons (logs_testBasicJavaScript env) (logs_cons (logs_testES6Features env)
      (logs_cons logs_testAsyncSupportStart logs_nil))))).weaken (by simp) (by simp)

theorem logs_part2 (env : Env) :
    Logs (["asyncTest", "flexboxTest", "gridTest", "animationTest", "imageTest", "svgTest",
        "formTest", "storageTest"] ++ fetchStartIds env)
      (Micro.promiseThen :: fetchQueued env) (runAllTestsPart2 env) :=
  (logs_cons logs_testAsyncSupportResume (logs_cons logs_testPromiseSupport
    (logs_cons (logs_testFlexbox env) (logs_cons (logs_testCSSGrid env)
      (logs_cons (logs_testAnimations env) (logs_cons (logs_testImageSupport env)
        (logs_cons (logs_testSVGSupport env) (logs_cons (logs_testFormControls env)
          (logs_cons (logs_testStorage env) (logs_cons (logs_testFetchAPIStart env)
            logs_nil)))))))))).weaken (by simp) (by simp)

theorem logs_part3 (env : Env) :
    Logs ["geolocationTest", "renderTest", "memoryTest"] [] (runAllTestsPart3 env) :=
  (logs_cons (logs_testGeolocation env) (logs_cons (logs_testRenderingPerformance env)
    (logs_cons (logs_testMemoryUsage env) (logs_cons logs_generateSummary
      (logs_cons (logs_updateExportData env) logs_nil))))).weaken (by simp) (by simp)

/-! ## The event loop respects the frame -/

theorem frame_settle (next : Phase) (t : Tester) (o : Outcome) (h : Frame t o.state) :
    Frame t (settle next o) := by
  cases o <;> exact ⟨h.touchSupported, h.touched, h.now, h.startTime, h.rafCallbacks,
    h.get, h.mono, h.wf⟩

theorem microtasks_settle (next : Phase) (o : Outcome) :
    (settle next o).microtasks = o.state.microtasks := by
  cases o <;> rfl

theorem part3_done (env : Env) (t : Tester) :
    runAllTestsPart3 env t
      = .done (updateExportData env (generateSummary (testMemoryUsage env
          (testRenderingPerformance env (testGeolocation env t))))) :=
  rfl

theorem frame_runMicro (env : Env) (m : Micro) (t : Tester) :
    Frame t (runMicro env m t) ∧ (runMicro env m t).microtasks = t.microtasks := by
  cases m with
  | promiseThen =>
    exact ⟨frame_logResult t _ _ _ (by decide) (by decide), rfl⟩
  | resumeAfterFetch =>
    unfold runMicro
    by_cases h : t.phase = .awaitFetch
    · rw [if_pos h]
      obtain ⟨f, d⟩ := logs_part3 env t
      refine ⟨frame_settle _ _ _ f, ?_⟩
      rw [microtasks_settle]
      have := (d _ (part3_done env t)).2
      rw [part3_done]
      simpa [Outcome.state] using this
    · rw [if_neg h]
      exact ⟨Frame.refl t, rfl⟩

theorem frame_foldl_runMicro (env : Env) (ms : List Micro) (t : Tester) :
    Frame t (ms.foldl (fun s m => runMicro env m s) t)
      ∧ (ms.foldl (fun s m => runMicro env m s) t).microtasks = t.microtasks := by
  induction ms generalizing t with
  | nil => exact ⟨Frame.refl t, rfl⟩
  | cons m rest ih =>
    obtain ⟨f1, m1⟩ := frame_runMicro env m t
    obtain ⟨f2, m2⟩ := ih (runMicro env m t)
    exact ⟨f1.trans f2, m2.trans m1⟩

theorem frame_runMicrotasks (env : Env) (t : Tester) :
    Frame t (runMicrotasks env t) ∧ (runMicrotasks env t).microtasks = [] := by
  unfold runMicrotasks
  obtain ⟨f, m⟩ := frame_foldl_runMicro env t.microtasks { t with microtasks := [] }
  exact ⟨⟨f.touchSupported, f.touched, f.now, f.startTime, f.rafCallbacks, f.get, f.mono,
    f.wf⟩, m⟩

theorem frame_task_timer (env : Env) (t : Tester) : Frame t (task env t .timer) := by
  simp only [task]
  split
  · exact frame_settle _ _ _ (logs_part2 env t).1
  · exact Frame.refl t

theorem frame_task_fetchSettled (env : Env) (t : Tester) (r : Except String String) :
    Frame t (task env t (.fetchSettled r)) := by
  simp only [task]
  split
  · have f1 := (logs_testFetchAPIResume r t).1
    simp only [ok, Outcome.state] at f1
    exact frame_settle _ _ _ (f1.trans (logs_part3 env _).1)
  · exact Frame.refl t

/-! ## The touch probe -/

theorem statusOf_frame {t t' : Tester} (f : Frame t t') (k : String) (hk : k ∉ batteryIds) :
    t'.statusOf k = t.statusOf k := by
  unfold Tester.statusOf
  rw [f.get k hk]

theorem exec_append (env : Env) (t : Tester) (es1 es2 : List Event) :
    exec env t (es1 ++ es2) = exec env (exec env t es1) es2 := by
  simp [exec, List.foldl_append]

theorem exec_cons (env : Env) (t : Tester) (e : Event) (es : List Event) :
    exec env t (e :: es) = exec env (step env t e) es :=
  rfl

theorem touch_step_status (env : Env) (t : Tester) (e : TouchEvent) :
    (step env t (.touchArea e)).statusOf "touchTest"
        = (onTouchEvent env t e).statusOf "touchTest"
    ∧ (step env t (.touchArea e)).touchSupported = (onTouchEvent env t e).touchSupported
    ∧ (step env t (.touchArea e)).touched = (onTouchEvent env t e).touched := by
  have f := (frame_runMicrotasks env (onTouchEvent env t e)).1
  exact ⟨statusOf_frame f _ (by decide), f.touchSupported, f.touched⟩

theorem touchConfirmed_step (env : Env) (t : Tester) (e : TouchEvent)
    (h : t.touchSupported = true ∧ t.statusOf "touchTest" = some "pass") :
    (step env t (.touchArea e)).touchSupported = true
      ∧ (step env t (.touchArea e)).statusOf "touchTest" = some "pass" := by
  obtain ⟨h1, h2, _⟩ := touch_step_status env t e
  rw [h1, h2]
  cases e with
  | touchstart => exact ⟨rfl, by simp [onTouchEvent, onTouchstart, statusOf_logResult]⟩
  | click => simpa [onTouchEvent, onClick, h.1] using h
  | graceTimer => simpa [onTouchEvent, onGraceTimer, h.1] using h

theorem touchConfirmed_exec (env : Env) (t : Tester) (es : List TouchEvent)
    (h : t.touchSupported = true ∧ t.statusOf "touchTest" = some "pass") :
    (exec env t (es.map Event.touchArea)).touchSupported = true
      ∧ (exec env t (es.map Event.touchArea)).statusOf "touchTest" = some "pass" := by
  induction es generalizing t with
  | nil => exact h
  | cons e rest ih =>
    rw [List.map_cons, exec_cons]
    exact ih _ (touchConfirmed_step env t e h)

theorem touchstart_confirms (env : Env) (t : Tester) :
    (step env t (.touchArea .touchstart)).touchSupported = true
      ∧ (step env t (.touchArea .touchstart)).statusOf "touchTest" = some "pass" := by
  obtain ⟨h1, h2, _⟩ := touch_step_status env t .touchstart
  rw [h1, h2]
  exact ⟨rfl, by simp [onTouchEvent, onTouchstart, statusOf_logResult]⟩

/-- C6. In every sequence of touch-area events (touchstart, click, expiry of the 5-second
timer) that contains a touchstart, from any state, the result recorded under `touchTest`
after the touchstart and after every later event has status pass: no later click or
expiry changes it. -/
theorem touch_confirmed_is_final (env : Env) (t : Tester) (before after : List TouchEvent) :
    (exec env t ((before ++ TouchEvent.touchstart :: after).map Event.touchArea)).statusOf
      "touchTest" = some "pass" := by
  rw [List.map_append, exec_append, List.map_cons, exec_cons]
  exact (touchConfirmed_exec env _ after (touchstart_confirms env _)).2

/-- Counterexample to C7. A touchstart after a click replaces the partial result
by pass, and a click after the timer expiry replaces the timed-out result by
partial: confirmed-click and the timed-out states are not terminal. -/
theorem touch_first_writer_refuted :
    (exec Env.typical Tester.fresh [.touchArea .click]).statusOf "touchTest" = some "partial"
    ∧ (exec Env.typical Tester.fresh [.touchArea .click, .touchArea .touchstart]).statusOf
        "touchTest" = some "pass"
    ∧ (exec Env.typical Tester.fresh [.touchArea .graceTimer]).statusOf "touchTest"
        = some "fail"
    ∧ (exec Env.typical Tester.fresh [.touchArea .graceTimer, .touchArea .click]).statusOf
        "touchTest" = some "partial" := by
  refine ⟨?_, ?_, ?_, ?_⟩ <;> rfl

/-- C7, amended. The transitions of the touch probe, from any state. A touchstart records
pass and sets both flags, whatever came before. A click records partial unless a
touchstart has been handled, in which case it changes nothing. The timer expiry records
info or fail by the capability flag unless a touchstart or a click has been handled, in
which case it changes nothing. After a touchstart the result stays pass under every
further sequence of touch-area events. -/
theorem touch_probe_transitions (env : Env) (t : Tester) (after : List TouchEvent) :
    ((step env t (.touchArea .touchstart)).statusOf "touchTest" = some "pass"
      ∧ (step env t (.touchArea .touchstart)).touchSupported = true
      ∧ (step env t (.touchArea .touchstart)).touched = true)
    ∧ ((step env t (.touchArea .click)).statusOf "touchTest"
          = (if t.touchSupported then t.statusOf "touchTest" else some "partial")
      ∧ (step env t (.touchArea .click)).touchSupported = t.touchSupported
      ∧ (step env t (.touchArea .click)).touched = (t.touched || !t.touchSupported))
    ∧ ((step env t (.touchArea .graceTimer)).statusOf "touchTest"
          = (if t.touchSupported || t.touched then t.statusOf "touchTest"
             else some (if env.hasTouchCapability then "info" else "fail"))
      ∧ (step env t (.touchArea .graceTimer)).touchSupported = t.touchSupported
      ∧ (step env t (.touchArea .graceTimer)).touched = t.touched)
    ∧ (exec env (step env t (.touchArea .touchstart)) (after.map Event.touchArea)).statusOf
        "touchTest" = some "pass" := by
  refine ⟨?_, ?_, ?_, (touchConfirmed_exec env _ after (touchstart_confirms env t)).2⟩
  · obtain ⟨h1, h2, h3⟩ := touch_step_status env t .touchstart
    rw [h1, h2, h3]
    exact ⟨by simp [onTouchEvent, onTouchstart, statusOf_logResult], rfl, rfl⟩
  · obtain ⟨h1, h2, h3⟩ := touch_step_status env t .click
    rw [h1, h2, h3]
    cases hs : t.touchSupported <;>
      simp [onTouchEvent, onClick, hs, statusOf_logResult, logResult, Tester.statusOf,
        get_assign, Value.status]
  · obtain ⟨h1, h2, h3⟩ := touch_step_status env t .graceTimer
    rw [h1, h2, h3]
    cases hs : t.touchSupported <;> cases ht : t.touched <;>
      simp [onTouchEvent, onGraceTimer, hs, ht, statusOf_logResult, logResult,
        Tester.statusOf, get_assign, Value.status]

/-! ## Export -/

theorem countFrames_keeps (c : RafClosure) (t : Tester) :
    (countFrames c t).exportData = t.exportData
      ∧ (countFrames c t).microtasks = t.microtasks
      ∧ (countFrames c t).phase = t.phase
      ∧ (countFrames c t).summaryContent = t.summaryContent := by
  unfold countFrames
  simp only []
  split <;> exact ⟨rfl, rfl, rfl, rfl⟩

theorem foldl_countFrames_keeps (cs : List RafClosure) (t : Tester) :
    (cs.foldl (fun s c => countFrames c s) t).exportData = t.exportData
      ∧ (cs.foldl (fun s c => countFrames c s) t).microtasks = t.microtasks
      ∧ (cs.foldl (fun s c => countFrames c s) t).phase = t.phase
      ∧ (cs.foldl (fun s c => countFrames c s) t).summaryContent = t.summaryContent := by
  induction cs generalizing t with
  | nil => exact ⟨rfl, rfl, rfl, rfl⟩
  | cons c rest ih =>
    obtain ⟨h1, h2, h3, h4⟩ := ih (countFrames c t)
    obtain ⟨k1, k2, k3, k4⟩ := countFrames_keeps c t
    exact ⟨h1.trans k1, h2.trans k2, h3.trans k3, h4.trans k4⟩

theorem late_task_keeps (env : Env) (t : Tester) (e : Event) (he : e.isLate = true) :
    (task env t e).exportData = t.exportData ∧ (task env t e).microtasks = t.microtasks
      ∧ (task env t e).phase = t.phase
      ∧ (task env t e).summaryContent = t.summaryContent := by
  cases e with
  | advance ms => exact ⟨rfl, rfl, rfl, rfl⟩
  | frame => exact foldl_countFrames_keeps _ _
  | timer => cases he
  | fetchSettled r => cases he
  | touchArea e =>
    cases e with
    | touchstart => exact ⟨rfl, rfl, rfl, rfl⟩
    | click =>
      simp only [task, onTouchEvent, onClick]
      split <;> exact ⟨rfl, rfl, rfl, rfl⟩
    | graceTimer =>
      simp only [task, onTouchEvent, onGraceTimer]
      split <;> exact ⟨rfl, rfl, rfl, rfl⟩
  | toggleContrast => exact ⟨rfl, rfl, rfl, rfl⟩

theorem runMicrotasks_nil (env : Env) (t : Tester) (h : t.microtasks = []) :
    runMicrotasks env t = t := by
  unfold runMicrotasks
  rw [h]
  cases t
  simp_all

theorem late_step_keeps (env : Env) (t : Tester) (e : Event) (hq : t.microtasks = [])
    (he : e.isLate = true) :
    (step env t e).exportData = t.exportData ∧ (step env t e).microtasks = []
      ∧ (step env t e).phase = t.phase
      ∧ (step env t e).summaryContent = t.summaryContent := by
  obtain ⟨h1, h2, h3, h4⟩ := late_task_keeps env t e he
  unfold step
  rw [runMicrotasks_nil env _ (h2.trans hq)]
  exact ⟨h1, h2.trans hq, h3, h4⟩

theorem late_exec_keeps (env : Env) (t : Tester) (es : List Event) (hq : t.microtasks = [])
    (hes : ∀ e ∈ es, e.isLate = true) :
    (exec env t es).exportData = t.exportData ∧ (exec env t es).microtasks = []
      ∧ (exec env t es).phase = t.phase
      ∧ (exec env t es).summaryContent = t.summaryContent := by
  induction es generalizing t with
  | nil => exact ⟨rfl, hq, rfl, rfl⟩
  | cons e rest ih =>
    obtain ⟨h1, h2, h3, h4⟩ := late_step_keeps env t e hq (hes e (List.mem_cons_self _ _))
    obtain ⟨k1, k2, k3, k4⟩ :=
      ih (step env t e) h2 fun x hx => hes x (List.mem_cons_of_mem _ hx)
    exact ⟨k1.trans h1, k2, k3.trans h3, k4.trans h4⟩

/-- Counterexample to C5. After a completed run a touchstart and the late frame
callback record `touchTest` and `refreshTest`; the registry has both entries, the file
offered by `exportResults` has neither, and its summary is not the summary of the current
registry. -/
theorem export_is_stale :
    (exec Env.typical (runAllTests Env.typical Tester.fresh)
        (quickRun ++ [.touchArea .touchstart, .advance 2000, .frame])).results.has "touchTest"
      = true
    ∧ (exec Env.typical (runAllTests Env.typical Tester.fresh)
        (quickRun ++ [.touchArea .touchstart, .advance 2000, .frame])).results.has "refreshTest"
      = true
    ∧ ((exportResults (exec Env.typical (runAllTests Env.typical Tester.fresh)
        (quickRun ++ [.touchArea .touchstart, .advance 2000, .frame]))).data.map
          fun snap => (snap.results.has "touchTest", snap.results.has "refreshTest",
            snap.summary.totalTests)) = some (false, false, 20)
    ∧ (summaryCounts (exec Env.typical (runAllTests Env.typical Tester.fresh)
        (quickRun ++ [.touchArea .touchstart, .advance 2000, .frame])).results).totalTests
      = 22 := by
  refine ⟨?_, ?_, ?_, ?_⟩ <;> rfl

/-- C5, amended. The file offered by `exportResults` holds the value of the field
`#exportData`. `updateExportData` stores there the snapshot of the registry of that moment,
with the summary counts of that registry. Results recorded afterwards by animation frames,
touch-area events or the contrast toggle leave the field as it is, so the export still
holds the snapshot taken by the last `updateExportData`. -/
theorem export_is_stored_snapshot (env : Env) (t : Tester) (es : List Event)
    (hq : t.microtasks = []) (hes : ∀ e ∈ es, e.isLate = true) :
    (exportResults t).data = t.exportData
    ∧ (exportResults (updateExportData env t)).data = some (exportSnapshot env t)
    ∧ (exportSnapshot env t).results = t.results
    ∧ (exportSnapshot env t).summary = summaryCounts t.results
    ∧ (exportResults (exec env (updateExportData env t) es)).data
        = some (exportSnapshot env t) := by
  refine ⟨rfl, rfl, rfl, rfl, ?_⟩
  have h := (late_exec_keeps env (updateExportData env t) es hq hes).1
  simp only [exportResults, h]
  rfl

/-- Witness of C5: a touchstart after `updateExportData` on the fresh tester. -/
theorem export_is_stored_snapshot_witness :
    Tester.fresh.microtasks = []
    ∧ (exportResults (exec Env.typical (updateExportData Env.typical Tester.fresh)
        [.touchArea .touchstart])).data = some (exportSnapshot Env.typical Tester.fresh)
    ∧ (exec Env.typical (updateExportData Env.typical Tester.fresh)
        [.touchArea .touchstart]).results.has "touchTest" = true := by
  refine ⟨rfl, ?_, rfl⟩
  exact (export_is_stored_snapshot Env.typical Tester.fresh [.touchArea .touchstart] rfl
    (by decide)).2.2.2.2

/-! ## Probe faults -/

/-- C1, at the failing input. On the typical page without the element `.flex-demo`,
`testFlexbox` throws out of `runAllTests`: the run is rejected with the description of
the fault, no entry is recorded under `flexboxTest`, the probes after it do not run, and
neither `generateSummary` nor `updateExportData` is reached. -/
theorem probe_fault_aborts_run :
    testFlexbox Env.noFlexDemo Tester.fresh = .threw computedStyleError Tester.fresh
    ∧ (exec Env.noFlexDemo (runAllTests Env.noFlexDemo Tester.fresh) quickRun).phase
        = .rejected computedStyleError
    ∧ (exec Env.noFlexDemo (runAllTests Env.noFlexDemo Tester.fresh) quickRun).results.has
        "flexboxTest" = false
    ∧ (exec Env.noFlexDemo (runAllTests Env.noFlexDemo Tester.fresh) quickRun).results.has
        "gridTest" = false
    ∧ (exec Env.noFlexDemo (runAllTests Env.noFlexDemo Tester.fresh) quickRun).results.has
        "memoryTest" = false
    ∧ (exec Env.noFlexDemo (runAllTests Env.noFlexDemo Tester.fresh) quickRun).summaryContent
        = none
    ∧ (exec Env.noFlexDemo (runAllTests Env.noFlexDemo Tester.fresh) quickRun).exportData
        = none := by
  refine ⟨?_, ?_, ?_, ?_, ?_, ?_, ?_⟩ <;> rfl

/-! ## What the registry holds -/

theorem part1_cases (env : Env) (t : Tester) :
    runAllTestsPart1 env t = .threw nullError (resetRun t)
    ∨ ∃ t2 u, testResolution env (resetRun t) = .done t2
        ∧ Frame (resetRun t) t2 ∧ t2.microtasks = t.microtasks
        ∧ (∀ k ∈ ["resolutionTest", "resolutionData"], t2.results.has k = true)
        ∧ runAllTestsPart1 env t = .done u
        ∧ Frame (testRefreshRate t2) u ∧ u.microtasks = t.microtasks
        ∧ (∀ k ∈ ["contrastTest", "contrastLevels", "fontTest", "jsBasicTest", "es6Test"],
            u.results.has k = true) := by
  obtain ⟨f1, d1⟩ := logs_testResolution env (resetRun t)
  rcases hres : testResolution env (resetRun t) with t2 | ⟨e, t2⟩
  · right
    rw [hres] at f1
    obtain ⟨k1, m1⟩ := d1 t2 hres
    obtain ⟨f2, d2⟩ := logs_part1_tail env (testRefreshRate t2)
    rcases htail : runSteps [ok (testContrast env), ok testFontRendering,
        ok (testBasicJavaScript env), ok (testES6Features env), ok testAsyncSupportStart]
        (testRefreshRate t2) with u | ⟨e, u⟩
    · rw [htail] at f2
      obtain ⟨k2, m2⟩ := d2 u htail
      refine ⟨t2, u, rfl, f1, by simpa [resetRun] using m1, k1, ?_, f2, ?_, k2⟩
      · simp only [runAllTestsPart1, runSteps, ok, hres]
        simpa only [runSteps, ok] using htail
      · rw [m2]
        simpa [testRefreshRate, resetRun] using m1
    · simp [runSteps, ok] at htail
  · left
    unfold testResolution at hres
    split at hres
    · cases hres
    · simp only [Outcome.threw.injEq] at hres
      obtain ⟨he, ht⟩ := hres
      subst he ht
      have hr : testResolution env (resetRun t) = .threw nullError (resetRun t) := by
        unfold testResolution
        simp [*]
      simp only [runAllTestsPart1, runSteps, ok, hr]

theorem wf_nil : WellFormed [] := by
  intro kv hkv
  cases hkv

theorem wf_part1 (env : Env) (t : Tester) :
    WellFormed (runAllTestsPart1 env t).state.results := by
  rcases part1_cases env t with h | ⟨t2, u, _, f1, _, _, hu, f2, _, _⟩
  · rw [h]
    exact wf_nil
  · rw [hu]
    exact f2.wf (f1.wf wf_nil)

theorem wf_logResult (t : Tester) (testId message status : String)
    (hs : status ∈ statusTags) (h : WellFormed t.results) :
    WellFormed (logResult t testId message status).results :=
  wf_assign _ _ _ (Or.inr (Or.inr (isProbeResult_of_tag _ _ _ hs))) h

theorem refreshStatus_tag (fps : Nat) : refreshStatus fps ∈ statusTags := by
  unfold refreshStatus
  exact ite_tag _ _ _ (by decide) (ite_tag _ _ _ (by decide) (by decide))

theorem wf_countFrames (c : RafClosure) (t : Tester) (h : WellFormed t.results) :
    WellFormed (countFrames c t).results := by
  unfold countFrames
  simp only []
  split
  · exact h
  · exact wf_logResult _ _ _ _ (refreshStatus_tag _) h

theorem wf_foldl_countFrames (cs : List RafClosure) (t : Tester)
    (h : WellFormed t.results) :
    WellFormed (cs.foldl (fun s c => countFrames c s) t).results := by
  induction cs generalizing t with
  | nil => exact h
  | cons c rest ih => exact ih _ (wf_countFrames c t h)

theorem wf_settle (next : Phase) (o : Outcome) :
    (settle next o).results = o.state.results := by
  cases o <;> rfl

theorem wf_task (env : Env) (t : Tester) (e : Event) (h : WellFormed t.results) :
    WellFormed (task env t e).results := by
  cases e with
  | advance ms => exact h
  | frame => exact wf_foldl_countFrames _ _ h
  | timer => exact (frame_task_timer env t).wf h
  | fetchSettled r => exact (frame_task_fetchSettled env t r).wf h
  | touchArea e =>
    cases e with
    | touchstart => exact wf_logResult _ _ _ _ (by decide) h
    | click =>
      simp only [task, onTouchEvent, onClick]
      split
      · exact wf_logResult _ _ _ _ (by decide) h
      · exact h
    | graceTimer =>
      simp only [task, onTouchEvent, onGraceTimer]
      split
      · exact wf_logResult _ _ _ _ (ite_tag _ _ _ (by decide) (by decide)) h
      · exact h
  | toggleContrast => exact wf_logResult _ _ _ _ (by decide) h

theorem wf_exec (env : Env) (t : Tester) (es : List Event) (h : WellFormed t.results) :
    WellFormed (exec env t es).results := by
  induction es generalizing t with
  | nil => exact h
  | cons e rest ih =>
    rw [exec_cons]
    exact ih _ ((frame_runMicrotasks env _).1.wf (wf_task env t e h))

/-- Counterexample to C4. After a run on the typical page the registry holds under
`resolutionData` and under `contrastLevels` values that are not ProbeResults: the object
and the number that `testResolution` and `testContrast` assign directly. -/
theorem registry_holds_other_values :
    (exec Env.typical (runAllTests Env.typical Tester.fresh) quickRun).results.get
        "contrastLevels" = some (.number 5)
    ∧ ((exec Env.typical (runAllTests Env.typical Tester.fresh) quickRun).results.get
        "contrastLevels").map Value.isProbeResult = some false
    ∧ ((exec Env.typical (runAllTests Env.typical Tester.fresh) quickRun).results.get
        "resolutionData").map Value.isProbeResult = some false := by
  refine ⟨?_, ?_, ?_⟩ <;> rfl

/-- C4, amended. At every turn of the event loop during and after `runAllTests`, whatever
the registry held before the run, every entry of `results` other than the two auxiliary
entries `resolutionData` and `contrastLevels` is a ProbeResult: a record with a message, a
timestamp and a status that is one of pass, partial, fail, info. The two auxiliary entries
are assigned directly: `testContrast` stores the number of samples, `testResolution` the
resolution object (when it does not throw). -/
theorem registry_entries (env : Env) (t : Tester) (es : List Event) :
    WellFormed (exec env (runAllTests env t) es).results
    ∧ (testContrast env t).results.get "contrastLevels" = some (.number env.contrastSamples)
    ∧ (testResolution env t).state.results.get "resolutionData"
        = (if env.resolutionDetails then some (.resolutionData (resolutionDataOf env))
           else t.results.get "resolutionData") := by
  refine ⟨?_, ?_, ?_⟩
  · apply wf_exec
    unfold runAllTests
    apply (frame_runMicrotasks env _).1.wf
    rw [wf_settle]
    exact wf_part1 env t
  · simp [testContrast, get_assign]
  · unfold testResolution
    by_cases h : env.resolutionDetails = true
    · simp [h, Outcome.state, get_assign]
    · simp [h, Outcome.state]

/-! ## The run and its summary -/

theorem countFrames_inv (s : Nat) (c : RafClosure) (t : Tester) (hc : c.startTime = s)
    (hcl : ∀ x ∈ t.rafCallbacks, x.startTime = s)
    (hearly : t.now < s + 2000 → t.results.get "refreshTest" = none) :
    (countFrames c t).startTime = t.startTime ∧ (countFrames c t).now = t.now
      ∧ (∀ x ∈ (countFrames c t).rafCallbacks, x.startTime = s)
      ∧ ((countFrames c t).now < s + 2000 → (countFrames c t).results.get "refreshTest" = none)
      ∧ (∀ k, t.results.has k = true → (countFrames c t).results.has k = true) := by
  unfold countFrames
  simp only []
  by_cases h : t.now - c.startTime < 2000
  · rw [if_pos h]
    refine ⟨rfl, rfl, ?_, hearly, fun _ hk => hk⟩
    intro x hx
    simp only [List.mem_append, List.mem_singleton] at hx
    rcases hx with hx | hx
    · exact hcl x hx
    · rw [hx]
      exact hc
  · rw [if_neg h]
    refine ⟨rfl, rfl, hcl, ?_, ?_⟩
    · intro hlt
      have : (logResult t "refreshTest" ("Estimated refresh rate: "
          ++ toString (refreshFps (c.frames + 1)) ++ " FPS")
          (refreshStatus (refreshFps (c.frames + 1)))).now = t.now := rfl
      rw [this] at hlt
      omega
    · intro k hk
      simp [logResult, has_assign, hk]

theorem foldl_countFrames_inv (s : Nat) (cs : List RafClosure) (t : Tester)
    (hcs : ∀ c ∈ cs, c.startTime = s)
    (hcl : ∀ x ∈ t.rafCallbacks, x.startTime = s)
    (hearly : t.now < s + 2000 → t.results.get "refreshTest" = none) :
    (cs.foldl (fun u c => countFrames c u) t).startTime = t.startTime
      ∧ (cs.foldl (fun u c => countFrames c u) t).now = t.now
      ∧ (∀ x ∈ (cs.foldl (fun u c => countFrames c u) t).rafCallbacks, x.startTime = s)
      ∧ ((cs.foldl (fun u c => countFrames c u) t).now < s + 2000 →
          (cs.foldl (fun u c => countFrames c u) t).results.get "refreshTest" = none)
      ∧ (∀ k, t.results.has k = true →
          (cs.foldl (fun u c => countFrames c u) t).results.has k = true) := by
  induction cs generalizing t with
  | nil => exact ⟨rfl, rfl, hcl, hearly, fun _ hk => hk⟩
  | cons c rest ih =>
    obtain ⟨a1, a2, a3, a4, a5⟩ :=
      countFrames_inv s c t (hcs c (List.mem_cons_self _ _)) hcl hearly
    obtain ⟨b1, b2, b3, b4, b5⟩ :=
      ih (countFrames c t) (fun x hx => hcs x (List.mem_cons_of_mem _ hx)) a3 a4
    exact ⟨b1.trans a1, b2.trans a2, b3, b4, fun k hk => b5 k (a5 k hk)⟩

theorem late_task_inv (env : Env) (s : Nat) (t : Tester) (e : Event) (he : e.isLate = true)
    (h : RunInv s t) :
    (task env t e).startTime = s ∧ s ≤ (task env t e).now
      ∧ (∀ x ∈ (task env t e).rafCallbacks, x.startTime = s)
      ∧ ((task env t e).now < s + 2000 → (task env t e).results.get "refreshTest" = none)
      ∧ (∀ k, t.results.has k = true → (task env t e).results.has k = true) := by
  cases e with
  | advance ms =>
    refine ⟨h.startTime, Nat.le_trans h.clock (Nat.le_add_right _ _), h.closures, ?_,
      fun _ hk => hk⟩
    intro hlt
    apply h.early
    simp only [task] at hlt
    omega
  | frame =>
    obtain ⟨a1, a2, a3, a4, a5⟩ := foldl_countFrames_inv s t.rafCallbacks
      { t with rafCallbacks := [] } h.closures (by simp) h.early
    exact ⟨a1.trans h.startTime, by simpa only [task, a2] using h.clock, a3, a4, a5⟩
  | timer => cases he
  | fetchSettled r => cases he
  | touchArea e =>
    cases e with
    | touchstart =>
      refine ⟨h.startTime, h.clock, h.closures, ?_, ?_⟩
      · intro hlt
        simpa [task, onTouchEvent, onTouchstart, logResult, get_assign] using h.early hlt
      · intro k hk
        simp [task, onTouchEvent, onTouchstart, logResult, has_assign, hk]
    | click =>
      simp only [task, onTouchEvent, onClick]
      split
      · refine ⟨h.startTime, h.clock, h.closures, ?_, ?_⟩
        · intro hlt
          simpa [logResult, get_assign] using h.early hlt
        · intro k hk
          simp [logResult, has_assign, hk]
      · exact ⟨h.startTime, h.clock, h.closures, h.early, fun _ hk => hk⟩
    | graceTimer =>
      simp only [task, onTouchEvent, onGraceTimer]
      split
      · refine ⟨h.startTime, h.clock, h.closures, ?_, ?_⟩
        · intro hlt
          simpa [logResult, get_assign] using h.early hlt
        · intro k hk
          simp [logResult, has_assign, hk]
      · exact ⟨h.startTime, h.clock, h.closures, h.early, fun _ hk => hk⟩
  | toggleContrast =>
    refine ⟨h.startTime, h.clock, h.closures, ?_, ?_⟩
    · intro hlt
      simpa [task, toggleHighContrast, logResult, get_assign] using h.early hlt
    · intro k hk
      simp [task, toggleHighContrast, logResult, has_assign, hk]

theorem inv_step_late (env : Env) (s : Nat) (t : Tester) (e : Event) (he : e.isLate = true)
    (h : RunInv s t) : RunInv s (step env t e) := by
  obtain ⟨a1, a2, a3, a4, a5⟩ := late_task_inv env s t e he h
  obtain ⟨k1, k2, k3, k4⟩ := late_task_keeps env t e he
  have hstep : step env t e = task env t e := by
    unfold step
    exact runMicrotasks_nil env _ (k2.trans h.queue)
  rw [hstep]
  refine ⟨a1, a2, a3, a4, k2.trans h.queue, ?_, ?_, ?_⟩
  · intro hp k hk
    rw [k3] at hp
    exact a5 k (h.part1 hp k hk)
  · intro hp k hk
    rw [k3] at hp
    exact a5 k (h.part2 hp k hk)
  · intro hp
    rw [k3] at hp
    rw [k1, k4]
    exact h.done hp

theorem finish_facts (env : Env) (x : Tester) :
    ∃ u snap, runAllTestsPart3 env x = .done u
      ∧ Frame x u ∧ u.microtasks = x.microtasks
      ∧ (∀ k ∈ ["geolocationTest", "renderTest", "memoryTest"], u.results.has k = true)
      ∧ u.exportData = some snap ∧ snap.results = u.results ∧ snap.timestamp = u.now
      ∧ u.summaryContent = some (summaryCounts u.results)
      ∧ snap.summary = summaryCounts u.results := by
  obtain ⟨f, d⟩ := logs_part3 env x
  have hd := part3_done env x
  rw [hd] at f
  obtain ⟨k, m⟩ := d _ hd
  exact ⟨_, _, hd, f, by simpa using m, k, rfl, rfl, rfl, rfl, rfl⟩

theorem battery_has (r : Registry) (h1 : ∀ k ∈ part1Ids, r.has k = true)
    (h2 : ∀ k ∈ part2Ids, r.has k = true) (h3 : ∀ k ∈ part3Ids, r.has k = true) :
    ∀ k ∈ batteryIds, r.has k = true := by
  intro k hk
  have hsub : ∀ x ∈ batteryIds, x ∈ part1Ids ++ part2Ids ++ part3Ids := by decide
  rcases List.mem_append.mp (hsub k hk) with h | h
  · rcases List.mem_append.mp h with h | h
    · exact h1 k h
    · exact h2 k h
  · exact h3 k h

/-- The rest of `runAllTests` after the second suspension establishes the invariant with
the run finished. -/
theorem finish_inv (env : Env) (s : Nat) (x : Tester)
    (h1 : ∀ k ∈ part1Ids, x.results.has k = true)
    (h2 : ∀ k ∈ part2Ids, x.results.has k = true)
    (hf : x.results.has "fetchTest" = true)
    (hs : x.startTime = s) (hc : s ≤ x.now)
    (hcl : ∀ c ∈ x.rafCallbacks, c.startTime = s)
    (he : x.now < s + 2000 → x.results.get "refreshTest" = none)
    (hq : x.microtasks = []) :
    RunInv s (settle .finished (runAllTestsPart3 env x)) := by
  obtain ⟨u, snap, hd, f, m, k3, hx, hr, hts, hsc, hsum⟩ := finish_facts env x
  rw [hd]
  simp only [settle]
  refine ⟨f.startTime.trans hs, by rw [f.now]; exact hc, by rw [f.rafCallbacks]; exact hcl,
    ?_, m.trans hq, ?_, ?_, ?_⟩
  · intro hlt
    rw [f.get "refreshTest" (by decide)]
    rw [f.now] at hlt
    exact he hlt
  · intro hp
    rcases hp with hp | hp <;> cases hp
  · intro hp
    cases hp
  · intro _
    refine ⟨snap, hx, ?_, ?_, ?_, ?_⟩
    · rw [hr]
      exact hsc
    · rw [hr]
      exact hsum
    · rw [hr]
      apply battery_has
      · exact fun k hk => f.mono k (h1 k hk)
      · exact fun k hk => f.mono k (h2 k hk)
      · intro k hk
        simp only [part3Ids, List.mem_cons, List.mem_singleton, List.not_mem_nil,
          or_false] at hk
        rcases hk with hk | hk
        · subst hk
          exact f.mono _ hf
        · exact k3 k (by simpa using hk)
    · intro hlt
      rw [hr, f.get "refreshTest" (by decide)]
      rw [hts, f.now] at hlt
      exact he hlt

theorem phase_runMicro_of_ne (env : Env) (m : Micro) (t : Tester)
    (h : t.phase ≠ .awaitFetch) : (runMicro env m t).phase = t.phase := by
  cases m with
  | promiseThen => rfl
  | resumeAfterFetch =>
    unfold runMicro
    rw [if_neg h]

theorem phase_foldl_runMicro_of_ne (env : Env) (ms : List Micro) (t : Tester)
    (h : t.phase ≠ .awaitFetch) :
    (ms.foldl (fun u m => runMicro env m u) t).phase = t.phase := by
  induction ms generalizing t with
  | nil => rfl
  | cons m rest ih =>
    have h1 := phase_runMicro_of_ne env m t h
    have h2 := ih (runMicro env m t) (by rw [h1]; exact h)
    exact h2.trans h1

theorem phase_runMicrotasks_of_ne (env : Env) (t : Tester) (h : t.phase ≠ .awaitFetch) :
    (runMicrotasks env t).phase = t.phase := by
  unfold runMicrotasks
  exact phase_foldl_runMicro_of_ne env _ _ h

theorem inv_step_fetchSettled (env : Env) (s : Nat) (t : Tester) (r : Except String String)
    (h : RunInv s t) : RunInv s (step env t (.fetchSettled r)) := by
  by_cases hg : t.phase = .awaitFetch ∧ env.fetchAvailable = true
  · have ht : task env t (.fetchSettled r)
        = settle .finished (runAllTestsPart3 env (testFetchAPIResume r t)) := by
      simp only [task]
      rw [if_pos hg]
    have f1 := (logs_testFetchAPIResume r t).1
    have d1 := ((logs_testFetchAPIResume r t).2 _ rfl)
    simp only [ok, Outcome.state] at f1 d1
    have hinv : RunInv s (settle .finished (runAllTestsPart3 env (testFetchAPIResume r t))) := by
      apply finish_inv
      · exact fun k hk => f1.mono k (h.part1 (Or.inr hg.1) k hk)
      · exact fun k hk => f1.mono k (h.part2 hg.1 k hk)
      · exact d1.1 _ (by simp)
      · exact f1.startTime.trans h.startTime
      · rw [f1.now]
        exact h.clock
      · rw [f1.rafCallbacks]
        exact h.closures
      · intro hlt
        rw [f1.get "refreshTest" (by decide)]
        rw [f1.now] at hlt
        exact h.early hlt
      · rw [d1.2, h.queue]
        rfl
    unfold step
    rw [ht, runMicrotasks_nil env _ hinv.queue]
    exact hinv
  · have : step env t (.fetchSettled r) = t := by
      unfold step
      simp only [task]
      rw [if_neg hg]
      exact runMicrotasks_nil env t h.queue
    rw [this]
    exact h

theorem inv_step_timer (env : Env) (s : Nat) (t : Tester) (h : RunInv s t) :
    RunInv s (step env t .timer) := by
  by_cases hg : t.phase = .awaitTimer ∧ t.timerDue ≤ t.now
  swap
  · have : step env t .timer = t := by
      unfold step
      simp only [task]
      rw [if_neg hg]
      exact runMicrotasks_nil env t h.queue
    rw [this]
    exact h
  have ht : task env t .timer = settle .awaitFetch (runAllTestsPart2 env t) := by
    simp only [task]
    rw [if_pos hg]
  obtain ⟨f, d⟩ := logs_part2 env t
  rcases hp : runAllTestsPart2 env t with u | ⟨e, u⟩
  · -- the second part returned
    rw [hp] at f
    simp only [Outcome.state] at f
    obtain ⟨ids, mq⟩ := d u hp
    rw [h.queue, List.nil_append] at mq
    -- the state in which the `.then` callback has run
    have hx1 : ∀ k ∈ part1Ids,
        (afterPromise u).results.has k = true := by
      intro k hk
      simp [afterPromise, promiseThen, logResult, has_assign, f.mono k (h.part1 (Or.inl hg.1) k hk)]
    have hxall : ∀ k ∈ "promiseTest" :: (["asyncTest", "flexboxTest", "gridTest",
        "animationTest", "imageTest", "svgTest", "formTest", "storageTest"]
          ++ fetchStartIds env),
        (afterPromise u).results.has k = true := by
      intro k hk
      rcases List.mem_cons.mp hk with hk | hk
      · subst hk
        simp [afterPromise, promiseThen, logResult, has_assign]
      · simp [afterPromise, promiseThen, logResult, has_assign, ids k hk]
    have hx2 : ∀ k ∈ part2Ids,
        (afterPromise u).results.has k = true := by
      intro k hk
      apply hxall
      simp only [part2Ids, List.mem_cons, List.mem_append, List.mem_singleton,
        List.not_mem_nil, or_false] at hk ⊢
      tauto
    have hxs : (afterPromise u).startTime = s :=
      f.startTime.trans h.startTime
    have hxc : s ≤ (afterPromise u).now := by
      show s ≤ u.now
      rw [f.now]
      exact h.clock
    have hxcl : ∀ c ∈ (afterPromise u).rafCallbacks, c.startTime = s := by
      show ∀ c ∈ u.rafCallbacks, c.startTime = s
      rw [f.rafCallbacks]
      exact h.closures
    have hxe : (afterPromise u).now < s + 2000 →
        (afterPromise u).results.get
          "refreshTest" = none := by
      intro hlt
      have hlt' : t.now < s + 2000 := by
        rw [← f.now]
        exact hlt
      simp only [afterPromise, promiseThen, logResult]
      rw [get_assign_of_ne _ _ _ _ (by decide), f.get "refreshTest" (by decide)]
      exact h.early hlt'
    by_cases fa : env.fetchAvailable = true
    · have hstep : step env t .timer
          = afterPromise u := by
        unfold step
        rw [ht, hp]
        simp only [settle, runMicrotasks, mq, fetchQueued, fa, if_true, List.foldl, runMicro,
          afterPromise]
      rw [hstep]
      exact ⟨hxs, hxc, hxcl, hxe, rfl, fun _ => hx1, fun _ => hx2, fun hph => by cases hph⟩
    · have hstep : step env t .timer
          = settle .finished (runAllTestsPart3 env
              (afterPromise u)) := by
        unfold step
        rw [ht, hp]
        simp only [settle, runMicrotasks, mq, fetchQueued, fa, List.foldl, runMicro,
          afterPromise]
        rfl
      rw [hstep]
      apply finish_inv env s _ hx1 hx2 ?_ hxs hxc hxcl hxe rfl
      apply hxall
      simp [fetchStartIds, fa]
  · -- a probe of the second part threw
    have hphase : (step env t .timer).phase = .rejected e := by
      unfold step
      rw [ht, hp, phase_runMicrotasks_of_ne]
      · rfl
      · simp [settle]
    have F1 := frame_task_timer env t
    obtain ⟨F2, q⟩ := frame_runMicrotasks env (task env t .timer)
    have F := F1.trans F2
    refine ⟨F.startTime.trans h.startTime, ?_, ?_, ?_, q, ?_, ?_, ?_⟩
    · rw [show (step env t .timer).now = t.now from F.now]
      exact h.clock
    · rw [show (step env t .timer).rafCallbacks = t.rafCallbacks from F.rafCallbacks]
      exact h.closures
    · intro hlt
      rw [show (step env t .timer).now = t.now from F.now] at hlt
      rw [show (step env t .timer).results.get "refreshTest" = t.results.get "refreshTest" from
        F.get _ (by decide)]
      exact h.early hlt
    · intro hph
      rw [hphase] at hph
      rcases hph with hph | hph <;> cases hph
    · intro hph
      rw [hphase] at hph
      cases hph
    · intro hph
      rw [hphase] at hph
      cases hph

theorem inv_step (env : Env) (s : Nat) (t : Tester) (e : Event) (h : RunInv s t) :
    RunInv s (step env t e) := by
  cases e with
  | advance ms => exact inv_step_late env s t _ rfl h
  | frame => exact inv_step_late env s t _ rfl h
  | timer => exact inv_step_timer env s t h
  | fetchSettled r => exact inv_step_fetchSettled env s t r h
  | touchArea e => exact inv_step_late env s t _ rfl h
  | toggleContrast => exact inv_step_late env s t _ rfl h

theorem inv_exec (env : Env) (s : Nat) (t : Tester) (es : List Event) (h : RunInv s t) :
    RunInv s (exec env t es) := by
  induction es generalizing t with
  | nil => exact h
  | cons e rest ih =>
    rw [exec_cons]
    exact ih _ (inv_step env s t e h)

theorem inv_runAllTests (env : Env) (t : Tester) (hq : t.microtasks = [])
    (hraf : t.rafCallbacks = []) : RunInv t.now (runAllTests env t) := by
  unfold runAllTests
  rcases part1_cases env t with h | ⟨t2, u, _, f1, _, k1, hu, f2, m2, k2⟩
  · rw [h]
    have hs : settle .awaitTimer (.threw nullError (resetRun t))
        = { resetRun t with phase := .rejected nullError } := rfl
    rw [hs, runMicrotasks_nil env _ (by simpa [resetRun] using hq)]
    refine ⟨rfl, Nat.le_refl _, ?_, fun _ => rfl, by simpa [resetRun] using hq, ?_, ?_, ?_⟩
    · intro c hc
      simp [resetRun, hraf] at hc
    · intro hph
      rcases hph with hph | hph <;> cases hph
    · intro hph
      cases hph
    · intro hph
      cases hph
  · rw [hu]
    have hs : settle .awaitTimer (.done u) = { u with phase := .awaitTimer } := rfl
    rw [hs, runMicrotasks_nil env _ (by simpa using m2.trans hq)]
    have hnow : u.now = t.now := f2.now.trans f1.now
    refine ⟨f2.startTime.trans f1.startTime, by simp [hnow], ?_, ?_, m2.trans hq, ?_, ?_, ?_⟩
    · intro c hc
      have hr : u.rafCallbacks = [{ startTime := t.now, frames := 0 }] := by
        rw [f2.rafCallbacks]
        simp only [testRefreshRate]
        rw [f1.rafCallbacks, f1.now]
        simp [resetRun, hraf]
      simp only [hr, List.mem_singleton] at hc
      rw [hc]
    · intro _
      show u.results.get "refreshTest" = none
      rw [f2.get "refreshTest" (by decide)]
      show t2.results.get "refreshTest" = none
      rw [f1.get "refreshTest" (by decide)]
      rfl
    · intro _ k hk
      show u.results.has k = true
      simp only [part1Ids, List.mem_cons, List.mem_singleton, List.not_mem_nil,
        or_false] at hk
      rcases hk with hk | hk | hk
      · exact f2.mono k (k1 k (by simp [hk]))
      · exact f2.mono k (k1 k (by simp [hk]))
      · exact k2 k (by simpa using hk)
    · intro hph
      cases hph
    · intro hph
      cases hph

/-- Counterexample to C2. On the typical page the run completes 12 ms after its start:
`generateSummary` and `updateExportData` have run, and the registry they saw has no entry
`refreshTest` (the frame-counting probe records it two seconds later, from an animation
frame). At the second suspension the `.then` callback of `testPromiseSupport` has recorded
`promiseTest` only after the seven probes that follow it. -/
theorem summary_misses_refresh :
    (exec Env.typical (runAllTests Env.typical Tester.fresh) quickRun).phase = .finished
    ∧ ((exec Env.typical (runAllTests Env.typical Tester.fresh) quickRun).exportData.map
        fun snap => snap.results.has "refreshTest") = some false
    ∧ ((exec Env.typical (runAllTests Env.typical Tester.fresh) quickRun).exportData.map
        fun snap => snap.results.has "promiseTest") = some true
    ∧ (exec Env.typical (runAllTests Env.typical Tester.fresh)
        (quickRun ++ [.advance 2000, .frame])).results.has "refreshTest" = true
    ∧ (exec Env.typical (runAllTests Env.typical Tester.fresh)
        [.advance 10, .timer]).results.keys
      = ["resolutionTest", "resolutionData", "contrastTest", "contrastLevels", "fontTest",
         "jsBasicTest", "es6Test", "asyncTest", "flexboxTest", "gridTest", "animationTest",
         "imageTest", "svgTest", "formTest", "storageTest", "promiseTest"] := by
  refine ⟨?_, ?_, ?_, ?_, ?_⟩ <;> rfl

/-! ## Memory usage -/

theorem toMB_bounds (bytes : Nat) :
    2 * bytes < 2097152 * toMB bytes + 1048576
      ∧ 2097152 * toMB bytes ≤ 2 * bytes + 1048576 := by
  unfold toMB mathRound
  omega

/-- Counterexample to C11. With 3 435 700 000 bytes used of a limit of 4 294 967 296
bytes the heap is below 80% of the limit, yet the recorded status is info: the two values
round to 3277 MB and 4096 MB, and 3277 is not below 3276.8. -/
theorem memory_rounding_refuted :
    10 * 3435700000 < 8 * 4294967296
    ∧ (testMemoryUsage Env.largeHeap Tester.fresh).statusOf "memoryTest" = some "info"
    ∧ (testMemoryUsage Env.largeHeap Tester.fresh).messageOf "memoryTest"
        = some "Memory usage: 3277MB / 4096MB limit" := by
  refine ⟨by decide, ?_, ?_⟩ <;> rfl

/-- C11, amended. When the heap-usage signal is exposed, the recorded status is pass if
and only if the used size rounded to whole megabytes is strictly less than 80% of the limit
rounded to whole megabytes, and info otherwise; each rounding is to the nearest megabyte, a
half rounding up. On the byte counts this agrees with "used below 80% of the limit" up to
0.9 MB: a pass implies used < 0.8 limit + 0.9 MB, and used + 0.9 MB <= 0.8 limit implies a
pass. When the signal is not exposed the status is info. -/
theorem memory_usage_status (env : Env) (t : Tester) (used limit : Nat) :
    ((testMemoryUsage { env with memory := some (used, limit) } t).statusOf "memoryTest"
        = some (if (toMB used : ℚ) < 8 / 10 * (toMB limit : ℚ) then "pass" else "info"))
    ∧ ((toMB used : Nat) : ℤ) = ⌊(used : ℚ) / 1048576 + 1 / 2⌋
    ∧ ((toMB limit : Nat) : ℤ) = ⌊(limit : ℚ) / 1048576 + 1 / 2⌋
    ∧ ((testMemoryUsage { env with memory := some (used, limit) } t).statusOf "memoryTest"
        = some "pass" ∨
       (testMemoryUsage { env with memory := some (used, limit) } t).statusOf "memoryTest"
        = some "info")
    ∧ ((testMemoryUsage { env with memory := some (used, limit) } t).statusOf "memoryTest"
        = some "pass" → 10 * used < 8 * limit + 9 * 1048576)
    ∧ (10 * used + 9 * 1048576 ≤ 8 * limit →
        (testMemoryUsage { env with memory := some (used, limit) } t).statusOf "memoryTest"
          = some "pass")
    ∧ (testMemoryUsage { env with memory := none } t).statusOf "memoryTest" = some "info" := by
  have hq : ((toMB used : ℚ) < 8 / 10 * (toMB limit : ℚ)) ↔ 10 * toMB used < 8 * toMB limit := by
    constructor
    · intro h
      have h' : ((10 * toMB used : ℕ) : ℚ) < ((8 * toMB limit : ℕ) : ℚ) := by
        push_cast
        linarith
      exact_mod_cast h'
    · intro h
      have h' : ((10 * toMB used : ℕ) : ℚ) < ((8 * toMB limit : ℕ) : ℚ) := by exact_mod_cast h
      push_cast at h'
      linarith
  have hs : (testMemoryUsage { env with memory := some (used, limit) } t).statusOf "memoryTest"
      = some (memoryStatus (toMB used) (toMB limit)) := by
    simp [testMemoryUsage, statusOf_logResult]
  obtain ⟨u1, u2⟩ := toMB_bounds used
  obtain ⟨l1, l2⟩ := toMB_bounds limit
  refine ⟨?_, ?_, ?_, ?_, ?_, ?_, ?_⟩
  · rw [hs]
    unfold memoryStatus
    simp only [hq]
  · have := mathRound_eq_floor used (1024 * 1024) (by norm_num)
    simpa [toMB] using this
  · have := mathRound_eq_floor limit (1024 * 1024) (by norm_num)
    simpa [toMB] using this
  · rw [hs]
    unfold memoryStatus
    split <;> simp
  · rw [hs]
    unfold memoryStatus
    split
    · intro _
      omega
    · intro h
      simp at h
  · intro h
    rw [hs]
    unfold memoryStatus
    rw [if_pos (by omega)]
  · simp [testMemoryUsage, statusOf_logResult]

/-! ## Basic language features and rendering performance -/

/-- C12. For every outcome of the four micro-checks of `testBasicJavaScript`, none
throwing, the recorded message is "k/4 basic JavaScript features working" with k the
number of checks that succeeded, and the status is pass if and only if k = 4, that is when
all four succeeded, otherwise partial. When only the serialization check fails the result
is partial with "3/4 basic JavaScript features working". -/
theorem basic_javascript_probe (env : Env) (t : Tester) (c : BasicChecks) :
    (testBasicJavaScript { env with basicJs := .ok c } t).messageOf "jsBasicTest"
        = some (toString c.succeeded ++ "/4 basic JavaScript features working")
    ∧ ((testBasicJavaScript { env with basicJs := .ok c } t).statusOf "jsBasicTest"
        = some "pass" ↔ c.succeeded = 4)
    ∧ ((testBasicJavaScript { env with basicJs := .ok c } t).statusOf "jsBasicTest"
        = some "partial" ↔ c.succeeded ≠ 4)
    ∧ (c.succeeded = 4
        ↔ (c.arrayCheck = true ∧ c.objectCheck = true ∧ c.functionCheck = true
            ∧ c.jsonCheck = true))
    ∧ (testBasicJavaScript { env with basicJs := .ok BasicChecks.serializationFails }
        t).messageOf "jsBasicTest" = some "3/4 basic JavaScript features working"
    ∧ (testBasicJavaScript { env with basicJs := .ok BasicChecks.serializationFails }
        t).statusOf "jsBasicTest" = some "partial" := by
  obtain ⟨a, b, f, j⟩ := c
  refine ⟨?_, ?_, ?_, ?_, ?_, ?_⟩
  · cases a <;> cases b <;> cases f <;> cases j <;>
      simp [testBasicJavaScript, messageOf_logResult, BasicChecks.toList,
        BasicChecks.succeeded]
  · cases a <;> cases b <;> cases f <;> cases j <;>
      simp [testBasicJavaScript, statusOf_logResult, BasicChecks.toList,
        BasicChecks.succeeded]
  · cases a <;> cases b <;> cases f <;> cases j <;>
      simp [testBasicJavaScript, statusOf_logResult, BasicChecks.toList,
        BasicChecks.succeeded]
  · cases a <;> cases b <;> cases f <;> cases j <;> simp [BasicChecks.succeeded]
  · simp [testBasicJavaScript, messageOf_logResult, BasicChecks.toList,
      BasicChecks.serializationFails]
    rfl
  · simp [testBasicJavaScript, statusOf_logResult, BasicChecks.toList,
      BasicChecks.serializationFails]

/-- C13. For every measured time `num / den` milliseconds of the DOM round trip, the status
recorded under `renderTest` is pass below 50, partial from 50 and below 200, fail from
200. 30 gives pass, 120 partial, 250 fail; the bounds 50 and 200 belong to the slower
class. -/
theorem render_performance_classification (env : Env) (t : Tester) (num den : Nat)
    (hden : 0 < den) :
    (testRenderingPerformance { env with renderNum := num, renderDen := den } t).statusOf
        "renderTest"
      = some (if (num : ℚ) / den < 50 then "pass"
              else if (num : ℚ) / den < 200 then "partial" else "fail")
    ∧ renderStatus 30 1 = "pass" ∧ renderStatus 120 1 = "partial"
    ∧ renderStatus 250 1 = "fail" ∧ renderStatus 50 1 = "partial"
    ∧ renderStatus 200 1 = "fail" ∧ renderStatus 4999 100 = "pass" := by
  have hd : (0 : ℚ) < den := by exact_mod_cast hden
  have h50 : (num : ℚ) / den < 50 ↔ num < 50 * den := by
    rw [div_lt_iff₀ hd]
    constructor
    · intro h
      have h' : ((num : ℕ) : ℚ) < ((50 * den : ℕ) : ℚ) := by push_cast; exact h
      exact_mod_cast h'
    · intro h
      have h' : ((num : ℕ) : ℚ) < ((50 * den : ℕ) : ℚ) := by exact_mod_cast h
      push_cast at h'
      exact h'
  have h200 : (num : ℚ) / den < 200 ↔ num < 200 * den := by
    rw [div_lt_iff₀ hd]
    constructor
    · intro h
      have h' : ((num : ℕ) : ℚ) < ((200 * den : ℕ) : ℚ) := by push_cast; exact h
      exact_mod_cast h'
    · intro h
      have h' : ((num : ℕ) : ℚ) < ((200 * den : ℕ) : ℚ) := by exact_mod_cast h
      push_cast at h'
      exact h'
  refine ⟨?_, by decide, by decide, by decide, by decide, by decide, by decide⟩
  simp only [testRenderingPerformance, statusOf_logResult, if_true, renderStatus, h50, h200]

/-- Witness of C13: 120 ms on the typical page. -/
theorem render_performance_classification_witness :
    (0 : Nat) < 1
    ∧ (testRenderingPerformance { Env.typical with renderNum := 120, renderDen := 1 }
        Tester.fresh).statusOf "renderTest" = some "partial" := by
  refine ⟨by decide, ?_⟩
  have h := (render_performance_classification Env.typical Tester.fresh 120 1 (by decide)).1
  rw [h]
  norm_num


/-! ## The ids of a run -/

theorem has_frame_only {t t' : Tester} (f : Frame t t')
    (h : ∀ k, t.results.has k = true → k ∈ batteryIds ∨ k = "refreshTest") :
    ∀ k, t'.results.has k = true → k ∈ batteryIds ∨ k = "refreshTest" := by
  intro k hk
  by_cases hb : k ∈ batteryIds
  · exact Or.inl hb
  · apply h
    unfold Registry.has at hk ⊢
    rw [← f.get k hb]
    exact hk

theorem step_timer_cases (env : Env) (t : Tester) (hq : t.microtasks = []) :
    step env t .timer = t
    ∨ (t.phase = .awaitTimer ∧ ∃ u, step env t .timer = afterPromise u)
    ∨ (t.phase = .awaitTimer
        ∧ ∃ x, step env t .timer = settle .finished (runAllTestsPart3 env x))
    ∨ (t.phase = .awaitTimer ∧ ∃ e, (step env t .timer).phase = .rejected e) := by
  by_cases hg : t.phase = .awaitTimer ∧ t.timerDue ≤ t.now
  swap
  · left
    unfold step
    simp only [task]
    rw [if_neg hg]
    exact runMicrotasks_nil env t hq
  have ht : task env t .timer = settle .awaitFetch (runAllTestsPart2 env t) := by
    simp only [task]
    rw [if_pos hg]
  obtain ⟨f, d⟩ := logs_part2 env t
  rcases hp : runAllTestsPart2 env t with u | ⟨e, u⟩
  · obtain ⟨_, mq⟩ := d u hp
    rw [hq, List.nil_append] at mq
    by_cases fa : env.fetchAvailable = true
    · right
      left
      refine ⟨hg.1, u, ?_⟩
      unfold step
      rw [ht, hp]
      simp only [settle, runMicrotasks, mq, fetchQueued, fa, if_true, List.foldl, runMicro,
        afterPromise]
    · right
      right
      left
      refine ⟨hg.1, afterPromise u, ?_⟩
      unfold step
      rw [ht, hp]
      simp only [settle, runMicrotasks, mq, fetchQueued, fa, List.foldl, runMicro,
        afterPromise]
      rfl
  · right
    right
    right
    refine ⟨hg.1, e, ?_⟩
    unfold step
    rw [ht, hp, phase_runMicrotasks_of_ne]
    · rfl
    · simp [settle]

theorem step_fetchSettled_cases (env : Env) (s : Nat) (t : Tester)
    (r : Except String String) (h : RunInv s t) :
    step env t (.fetchSettled r) = t
    ∨ (t.phase = .awaitFetch
        ∧ ∃ x, step env t (.fetchSettled r) = settle .finished (runAllTestsPart3 env x)) := by
  by_cases hg : t.phase = .awaitFetch ∧ env.fetchAvailable = true
  · right
    refine ⟨hg.1, testFetchAPIResume r t, ?_⟩
    have ht : task env t (.fetchSettled r)
        = settle .finished (runAllTestsPart3 env (testFetchAPIResume r t)) := by
      simp only [task]
      rw [if_pos hg]
    unfold step
    rw [ht]
    obtain ⟨u, snap, hd, _, m, _⟩ := finish_facts env (testFetchAPIResume r t)
    apply runMicrotasks_nil
    rw [hd]
    show u.microtasks = []
    rw [m]
    have d1 := ((logs_testFetchAPIResume r t).2 _ rfl).2
    rw [d1, h.queue]
    rfl
  · left
    unfold step
    simp only [task]
    rw [if_neg hg]
    exact runMicrotasks_nil env t h.queue

theorem finished_has_all (env : Env) (s : Nat) (x : Tester)
    (h : RunInv s (settle .finished (runAllTestsPart3 env x))) :
    ∀ k ∈ batteryIds, (settle .finished (runAllTestsPart3 env x)).results.has k = true := by
  obtain ⟨u, snap, hd, _, _, _, hx, hr, _⟩ := finish_facts env x
  rw [hd] at h ⊢
  obtain ⟨snap', h1, _, _, h4, _⟩ := h.done rfl
  have hs : snap' = snap := by
    have he : some snap' = some snap := h1.symm.trans hx
    exact Option.some.inj he
  subst hs
  intro k hk
  have := h4 k hk
  rw [hr] at this
  exact this

theorem mem_keys_iff_has (r : Registry) (k : String) : k ∈ r.keys ↔ r.has k = true := by
  induction r with
  | nil => simp [Registry.keys, Registry.has, Registry.get]
  | cons kv rest ih =>
    obtain ⟨a, w⟩ := kv
    by_cases h : a = k
    · simp [Registry.keys, Registry.has, Registry.get, h]
    · have h' : ¬ k = a := fun e => h e.symm
      simp only [Registry.keys, Registry.has, List.map_cons, List.mem_cons, h', false_or,
        Registry.get, h, if_false] at ih ⊢
      exact ih

theorem countFrames_tail (c : RafClosure) (u : Tester) :
    (∀ k, (countFrames c u).results.has k = true → u.results.has k = true ∨ k = "refreshTest")
    ∧ (∀ k, u.results.has k = true → (countFrames c u).results.has k = true)
    ∧ (u.rafCallbacks ≠ [] → (countFrames c u).rafCallbacks ≠ [])
    ∧ ((countFrames c u).rafCallbacks ≠ []
        ∨ (countFrames c u).results.has "refreshTest" = true) := by
  unfold countFrames
  simp only []
  by_cases h : u.now - c.startTime < 2000
  · rw [if_pos h]
    refine ⟨fun k hk => Or.inl hk, fun k hk => hk, ?_, Or.inl ?_⟩ <;> simp
  · rw [if_neg h]
    refine ⟨?_, ?_, fun hn => hn, Or.inr (has_logResult_self _ _ _ _)⟩
    · intro k hk
      simp only [logResult, has_assign, Bool.or_eq_true, decide_eq_true_eq] at hk
      rcases hk with hk | hk
      · exact Or.inr hk.symm
      · exact Or.inl hk
    · intro k hk
      simp [logResult, has_assign, hk]

theorem foldl_countFrames_tail (cs : List RafClosure) (u : Tester) :
    (∀ k, (cs.foldl (fun s c => countFrames c s) u).results.has k = true →
        u.results.has k = true ∨ k = "refreshTest")
    ∧ (∀ k, u.results.has k = true →
        (cs.foldl (fun s c => countFrames c s) u).results.has k = true)
    ∧ (u.rafCallbacks ≠ [] ∨ u.results.has "refreshTest" = true ∨ cs ≠ [] →
        (cs.foldl (fun s c => countFrames c s) u).rafCallbacks ≠ []
          ∨ (cs.foldl (fun s c => countFrames c s) u).results.has "refreshTest" = true) := by
  induction cs generalizing u with
  | nil =>
    refine ⟨fun k hk => Or.inl hk, fun k hk => hk, ?_⟩
    intro h
    rcases h with h | h | h
    · exact Or.inl h
    · exact Or.inr h
    · exact absurd rfl h
  | cons c rest ih =>
    obtain ⟨a1, a2, _, a4⟩ := countFrames_tail c u
    obtain ⟨b1, b2, b3⟩ := ih (countFrames c u)
    refine ⟨?_, fun k hk => b2 k (a2 k hk), ?_⟩
    · intro k hk
      rcases b1 k hk with h | h
      · exact a1 k h
      · exact Or.inr h
    · intro _
      apply b3
      rcases a4 with h | h
      · exact Or.inl h
      · exact Or.inr (Or.inl h)

theorem tail_step (env : Env) (s : Nat) (t : Tester) (e : Event) (he : e.isRun = true)
    (h : RunInv s t) (j : TailInv t) : TailInv (step env t e) := by
  have hnew := inv_step env s t e h
  cases e with
  | advance ms =>
    have hstep : step env t (.advance ms) = { t with now := t.now + ms } := by
      unfold step
      exact runMicrotasks_nil env _ h.queue
    rw [hstep]
    exact ⟨j.only, j.all, j.refresh⟩
  | frame =>
    have hstep : step env t .frame
        = t.rafCallbacks.foldl (fun s c => countFrames c s) { t with rafCallbacks := [] } := by
      unfold step
      apply runMicrotasks_nil
      exact ((foldl_countFrames_keeps _ _).2.1).trans h.queue
    obtain ⟨a1, a2, a3⟩ :=
      foldl_countFrames_tail t.rafCallbacks { t with rafCallbacks := [] }
    have hph := (foldl_countFrames_keeps t.rafCallbacks { t with rafCallbacks := [] }).2.2.1
    rw [hstep]
    refine ⟨?_, ?_, ?_⟩
    · intro k hk
      rcases a1 k hk with hk' | hk'
      · exact j.only k hk'
      · exact Or.inr hk'
    · intro hp k hk
      rw [hph] at hp
      exact a2 k (j.all hp k hk)
    · intro hact hraf
      have hact' : t.active := by
        unfold Tester.active at hact ⊢
        rw [hph] at hact
        exact hact
      by_cases hcs : t.rafCallbacks = []
      · exact a2 _ (j.refresh hact' hcs)
      · rcases a3 (Or.inr (Or.inr hcs)) with h1 | h1
        · exact absurd hraf h1
        · exact h1
  | timer =>
    have F := (frame_task_timer env t).trans (frame_runMicrotasks env (task env t .timer)).1
    have hgen : t.phase = .awaitTimer →
        ((step env t .timer).phase = .finished →
          ∀ k ∈ batteryIds, (step env t .timer).results.has k = true) →
        TailInv (step env t .timer) := by
      intro hp hall
      refine ⟨has_frame_only F j.only, hall, ?_⟩
      intro _ hraf
      have hraf' : t.rafCallbacks = [] := by
        rw [← show (step env t .timer).rafCallbacks = t.rafCallbacks from F.rafCallbacks]
        exact hraf
      exact F.mono _ (j.refresh (Or.inl hp) hraf')
    rcases step_timer_cases env t h.queue with hc | ⟨hp, u, hc⟩ | ⟨hp, x, hc⟩ | ⟨hp, e, hc⟩
    · rw [hc]
      exact j
    · apply hgen hp
      intro hfin
      rw [hc] at hfin
      cases hfin
    · apply hgen hp
      intro _
      rw [hc] at hnew ⊢
      exact finished_has_all env s x hnew
    · apply hgen hp
      intro hfin
      rw [hc] at hfin
      cases hfin
  | fetchSettled r =>
    have F := (frame_task_fetchSettled env t r).trans
      (frame_runMicrotasks env (task env t (.fetchSettled r))).1
    rcases step_fetchSettled_cases env s t r h with hc | ⟨hp, x, hc⟩
    · rw [hc]
      exact j
    · refine ⟨has_frame_only F j.only, ?_, ?_⟩
      · intro _
        rw [hc] at hnew ⊢
        exact finished_has_all env s x hnew
      · intro _ hraf
        have hraf' : t.rafCallbacks = [] := by
          rw [← show (step env t (.fetchSettled r)).rafCallbacks = t.rafCallbacks from
            F.rafCallbacks]
          exact hraf
        exact F.mono _ (j.refresh (Or.inr (Or.inl hp)) hraf')
  | touchArea e => cases he
  | toggleContrast => cases he

theorem tail_exec (env : Env) (s : Nat) (t : Tester) (es : List Event)
    (hes : ∀ e ∈ es, e.isRun = true) (h : RunInv s t) (j : TailInv t) :
    TailInv (exec env t es) := by
  induction es generalizing t with
  | nil => exact j
  | cons e rest ih =>
    rw [exec_cons]
    exact ih _ (fun x hx => hes x (List.mem_cons_of_mem _ hx)) (inv_step env s t e h)
      (tail_step env s t e (hes e (List.mem_cons_self _ _)) h j)

theorem tail_runAllTests (env : Env) (t : Tester) (hq : t.microtasks = []) :
    TailInv (runAllTests env t) := by
  unfold runAllTests
  rcases part1_cases env t with h | ⟨t2, u, _, f1, _, _, hu, f2, m2, _⟩
  · rw [h]
    have hs : settle .awaitTimer (.threw nullError (resetRun t))
        = { resetRun t with phase := .rejected nullError } := rfl
    rw [hs, runMicrotasks_nil env _ (by simpa [resetRun] using hq)]
    refine ⟨?_, ?_, ?_⟩
    · intro k hk
      simp [resetRun, Registry.has, Registry.get] at hk
    · intro hp
      cases hp
    · intro hact
      rcases hact with hp | hp | hp <;> cases hp
  · rw [hu]
    have hs : settle .awaitTimer (.done u) = { u with phase := .awaitTimer } := rfl
    rw [hs, runMicrotasks_nil env _ (by simpa using m2.trans hq)]
    refine ⟨?_, ?_, ?_⟩
    · have h0 : ∀ k, (resetRun t).results.has k = true → k ∈ batteryIds ∨ k = "refreshTest" := by
        intro k hk
        simp [resetRun, Registry.has, Registry.get] at hk
      have h1 := has_frame_only f1 h0
      have h2 : ∀ k, (testRefreshRate t2).results.has k = true →
          k ∈ batteryIds ∨ k = "refreshTest" := h1
      exact has_frame_only (frame_settle .awaitTimer _ (.done u) f2) h2
    · intro hp
      cases hp
    · intro _ hr
      have hr' : u.rafCallbacks = [] := hr
      rw [f2.rafCallbacks] at hr'
      simp [testRefreshRate] at hr'

/-- C14. Take two runs of `runAllTests` in sequence, in any two environments and from any
prior registry content, each followed by its own events (time, animation frames, the
timer, the settling of the request) until it has finished and no frame callback is
pending, the second run starting from the state the first one ended in; nothing of an
earlier run is pending at the start. Then the registry has the same set of ids after both
runs: the battery ids and `refreshTest`, whatever the probes found. -/
theorem run_ids_fixed (env1 env2 : Env) (t : Tester) (es1 es2 : List Event)
    (hq : t.microtasks = []) (hraf : t.rafCallbacks = [])
    (hes1 : ∀ e ∈ es1, e.isRun = true) (hes2 : ∀ e ∈ es2, e.isRun = true)
    (hfin1 : (exec env1 (runAllTests env1 t) es1).phase = .finished)
    (htail1 : (exec env1 (runAllTests env1 t) es1).rafCallbacks = [])
    (hfin2 : (exec env2 (runAllTests env2 (exec env1 (runAllTests env1 t) es1)) es2).phase
      = .finished)
    (htail2 : (exec env2 (runAllTests env2 (exec env1 (runAllTests env1 t) es1))
      es2).rafCallbacks = []) :
    ∀ k, (k ∈ (exec env1 (runAllTests env1 t) es1).results.keys
            ↔ k ∈ batteryIds ∨ k = "refreshTest")
      ∧ (k ∈ (exec env2 (runAllTests env2 (exec env1 (runAllTests env1 t) es1))
              es2).results.keys
            ↔ k ∈ batteryIds ∨ k = "refreshTest")
      ∧ (k ∈ (exec env1 (runAllTests env1 t) es1).results.keys
            ↔ k ∈ (exec env2 (runAllTests env2 (exec env1 (runAllTests env1 t) es1))
              es2).results.keys) := by
  have key : ∀ (env : Env) (t0 : Tester) (es : List Event), t0.microtasks = [] →
      t0.rafCallbacks = [] → (∀ e ∈ es, e.isRun = true) →
      (exec env (runAllTests env t0) es).phase = .finished →
      (exec env (runAllTests env t0) es).rafCallbacks = [] →
      ∀ k, k ∈ (exec env (runAllTests env t0) es).results.keys
        ↔ k ∈ batteryIds ∨ k = "refreshTest" := by
    intro env t0 es h1 h2 h3 h4 h5 k
    have hinv := inv_runAllTests env t0 h1 h2
    have j := tail_exec env t0.now _ es h3 hinv (tail_runAllTests env t0 h1)
    rw [mem_keys_iff_has]
    constructor
    · exact j.only k
    · intro hk
      rcases hk with hk | hk
      · exact j.all h4 k hk
      · rw [hk]
        exact j.refresh (Or.inr (Or.inr h4)) h5
  have hq2 := (inv_exec env1 t.now _ es1 (inv_runAllTests env1 t hq hraf)).queue
  intro k
  have a := key env1 t es1 hq hraf hes1 hfin1 htail1 k
  have b := key env2 _ es2 hq2 htail1 hes2 hfin2 htail2 k
  exact ⟨a, b, a.trans b.symm⟩


/-- Witness of C14: a run on the typical page, then a run in a browser without `fetch`. -/
theorem run_ids_fixed_witness :
    Tester.fresh.microtasks = [] ∧ Tester.fresh.rafCallbacks = []
    ∧ (∀ e ∈ fullRun, e.isRun = true) ∧ (∀ e ∈ noFetchRun, e.isRun = true)
    ∧ (exec Env.typical (runAllTests Env.typical Tester.fresh) fullRun).phase = .finished
    ∧ (exec Env.typical (runAllTests Env.typical Tester.fresh) fullRun).rafCallbacks = []
    ∧ (exec Env.noFetch (runAllTests Env.noFetch
        (exec Env.typical (runAllTests Env.typical Tester.fresh) fullRun)) noFetchRun).phase
      = .finished
    ∧ (exec Env.noFetch (runAllTests Env.noFetch
        (exec Env.typical (runAllTests Env.typical Tester.fresh) fullRun))
          noFetchRun).rafCallbacks = []
    ∧ (exec Env.typical (runAllTests Env.typical Tester.fresh) fullRun).statusOf "fetchTest"
      = some "pass"
    ∧ (exec Env.noFetch (runAllTests Env.noFetch
        (exec Env.typical (runAllTests Env.typical Tester.fresh) fullRun))
          noFetchRun).statusOf "fetchTest" = some "fail"
    ∧ ∀ k, (k ∈ (exec Env.typical (runAllTests Env.typical Tester.fresh) fullRun).results.keys
              ↔ k ∈ batteryIds ∨ k = "refreshTest")
        ∧ (k ∈ (exec Env.noFetch (runAllTests Env.noFetch
              (exec Env.typical (runAllTests Env.typical Tester.fresh) fullRun))
                noFetchRun).results.keys
              ↔ k ∈ batteryIds ∨ k = "refreshTest")
        ∧ (k ∈ (exec Env.typical (runAllTests Env.typical Tester.fresh) fullRun).results.keys
              ↔ k ∈ (exec Env.noFetch (runAllTests Env.noFetch
                (exec Env.typical (runAllTests Env.typical Tester.fresh) fullRun))
                  noFetchRun).results.keys) :=
  ⟨rfl, rfl, by decide, by decide, rfl, rfl, rfl, rfl, rfl, rfl,
    run_ids_fixed Env.typical Env.noFetch Tester.fresh fullRun noFetchRun rfl rfl
      (by decide) (by decide) rfl rfl rfl rfl⟩

/-! ## The directory-traversal guard of the server -/

/-- C15, at the failing inputs. For the request URL `/..` the guard leaves the path `..`,
the parent of the serving directory: `path.normalize('./..')` is `..`, which the pattern
does not match because no separator follows. The URL `/../..` ends in `..` too. For the URL
`/..\/etc/passwd` (a backslash after the two dots) the pattern removes `..\` and leaves
the absolute path `/etc/passwd`. A URL such as `/../../etc/passwd` is confined as
intended. -/
theorem traversal_guard_leaks :
    safePath "/.." = ".."
    ∧ hasDotDotSegment (safePath "/..") = true
    ∧ safePath "/../.." = ".."
    ∧ hasDotDotSegment (safePath "/../..") = true
    ∧ safePath (String.mk ("/..".data ++ backslash :: "/etc/passwd".data)) = "/etc/passwd"
    ∧ isAbsolutePath (safePath (String.mk ("/..".data ++ backslash :: "/etc/passwd".data)))
        = true
    ∧ safePath "/../../etc/passwd" = "etc/passwd"
    ∧ safePath "/" = "index.html" := by
  refine ⟨?_, ?_, ?_, ?_, ?_, ?_, ?_, ?_⟩ <;> decide


/-! ## The frames the refresh-rate probe counts -/

theorem counting_runMicrotasks (env : Env) {start : Nat} {before : Option Value}
    {frames elapsed : Nat} {t : Tester} (h : Counting start before frames elapsed t) :
    Counting start before frames elapsed (runMicrotasks env t) := by
  obtain ⟨f, _⟩ := frame_runMicrotasks env t
  exact ⟨f.rafCallbacks.trans h.closure, f.now.trans h.clock,
    (f.get _ (by decide)).trans h.entry⟩

theorem counting_step (env : Env) (start : Nat) (before : Option Value)
    (frames elapsed : Nat) (t : Tester) (e : Event)
    (h : Counting start before frames elapsed t)
    (hearly : elapsed + advanceSum [e] < 2000) :
    Counting start before (frames + frameCount [e]) (elapsed + advanceSum [e])
      (step env t e) := by
  unfold step
  apply counting_runMicrotasks
  cases e with
  | advance ms =>
    refine ⟨h.closure, ?_, h.entry⟩
    simp only [task, advanceSum, h.clock]
    omega
  | frame =>
    have hlt : t.now - start < 2000 := by
      rw [h.clock]
      simp only [advanceSum] at hearly
      omega
    simp only [task, h.closure, List.foldl, countFrames, hlt, if_true, frameCount, advanceSum,
      Nat.add_zero]
    exact ⟨by simp, h.clock, h.entry⟩
  | timer =>
    have f := frame_task_timer env t
    exact ⟨f.rafCallbacks.trans h.closure, f.now.trans h.clock,
      (f.get _ (by decide)).trans h.entry⟩
  | fetchSettled r =>
    have f := frame_task_fetchSettled env t r
    exact ⟨f.rafCallbacks.trans h.closure, f.now.trans h.clock,
      (f.get _ (by decide)).trans h.entry⟩
  | touchArea e =>
    cases e with
    | touchstart =>
      exact ⟨h.closure, h.clock, by
        simpa [task, onTouchEvent, onTouchstart, logResult, get_assign] using h.entry⟩
    | click =>
      simp only [task, onTouchEvent, onClick]
      split
      · exact ⟨h.closure, h.clock, by simpa [logResult, get_assign] using h.entry⟩
      · exact h
    | graceTimer =>
      simp only [task, onTouchEvent, onGraceTimer]
      split
      · exact ⟨h.closure, h.clock, by simpa [logResult, get_assign] using h.entry⟩
      · exact h
  | toggleContrast =>
    exact ⟨h.closure, h.clock, by
      simpa [task, toggleHighContrast, logResult, get_assign] using h.entry⟩

theorem frameCount_cons (e : Event) (es : List Event) :
    frameCount (e :: es) = frameCount [e] + frameCount es := by
  cases e <;> simp [frameCount, Nat.add_comm]

theorem advanceSum_cons (e : Event) (es : List Event) :
    advanceSum (e :: es) = advanceSum [e] + advanceSum es := by
  cases e <;> simp [advanceSum]

theorem frameCount_append (es1 es2 : List Event) :
    frameCount (es1 ++ es2) = frameCount es1 + frameCount es2 := by
  induction es1 with
  | nil => simp [frameCount]
  | cons e rest ih =>
    rw [List.cons_append, frameCount_cons, ih, frameCount_cons e rest]
    omega

theorem counting_exec (env : Env) (start : Nat) (before : Option Value)
    (frames elapsed : Nat) (t : Tester) (es : List Event)
    (h : Counting start before frames elapsed t)
    (hearly : elapsed + advanceSum es < 2000) :
    Counting start before (frames + frameCount es) (elapsed + advanceSum es)
      (exec env t es) := by
  induction es generalizing t frames elapsed with
  | nil => simpa [frameCount, advanceSum, exec] using h
  | cons e rest ih =>
    rw [advanceSum_cons] at hearly
    have h1 := counting_step env start before frames elapsed t e h (by omega)
    have h2 := ih _ _ _ h1 (by omega)
    rw [exec_cons, frameCount_cons, advanceSum_cons]
    rw [Nat.add_assoc, Nat.add_assoc] at h2
    exact h2

/-- Events without a frame keep the closure waiting with its count. -/
theorem waiting_exec (env : Env) (start : Nat) (before : Option Value)
    (frames elapsed : Nat) (t : Tester) (es : List Event)
    (h : Counting start before frames elapsed t) (hno : frameCount es = 0) :
    Counting start before frames (elapsed + advanceSum es) (exec env t es) := by
  induction es generalizing t elapsed with
  | nil => simpa [advanceSum, exec] using h
  | cons e rest ih =>
    rw [frameCount_cons] at hno
    have he : frameCount [e] = 0 := by omega
    have h1 : Counting start before frames (elapsed + advanceSum [e]) (step env t e) := by
      unfold step
      apply counting_runMicrotasks
      cases e with
      | advance ms =>
        refine ⟨h.closure, ?_, h.entry⟩
        simp only [task, advanceSum, h.clock]
        omega
      | frame => simp [frameCount] at he
      | timer =>
        have f := frame_task_timer env t
        exact ⟨f.rafCallbacks.trans h.closure, f.now.trans h.clock,
          (f.get _ (by decide)).trans h.entry⟩
      | fetchSettled r =>
        have f := frame_task_fetchSettled env t r
        exact ⟨f.rafCallbacks.trans h.closure, f.now.trans h.clock,
          (f.get _ (by decide)).trans h.entry⟩
      | touchArea e =>
        cases e with
        | touchstart =>
          exact ⟨h.closure, h.clock, by
            simpa [task, onTouchEvent, onTouchstart, logResult, get_assign] using h.entry⟩
        | click =>
          simp only [task, onTouchEvent, onClick]
          split
          · exact ⟨h.closure, h.clock, by simpa [logResult, get_assign] using h.entry⟩
          · exact h
        | graceTimer =>
          simp only [task, onTouchEvent, onGraceTimer]
          split
          · exact ⟨h.closure, h.clock, by simpa [logResult, get_assign] using h.entry⟩
          · exact h
      | toggleContrast =>
        exact ⟨h.closure, h.clock, by
          simpa [task, toggleHighContrast, logResult, get_assign] using h.entry⟩
    have h2 := ih _ _ h1 (by omega)
    rw [exec_cons, advanceSum_cons, ← Nat.add_assoc]
    exact h2

theorem closing_frame (env : Env) (start : Nat) (before : Option Value)
    (frames elapsed : Nat) (t : Tester)
    (h : Counting start before frames elapsed t) (hlate : 2000 ≤ elapsed) :
    (step env t .frame).statusOf "refreshTest" = some (refreshStatus (refreshFps (frames + 1)))
    ∧ (step env t .frame).messageOf "refreshTest"
        = some ("Estimated refresh rate: " ++ toString (refreshFps (frames + 1)) ++ " FPS")
    ∧ (step env t .frame).rafCallbacks = [] := by
  have hge : ¬ t.now - start < 2000 := by
    rw [h.clock]
    omega
  obtain ⟨f, _⟩ := frame_runMicrotasks env (task env t .frame)
  have ht : task env t .frame
      = logResult { t with rafCallbacks := [] } "refreshTest"
          ("Estimated refresh rate: " ++ toString (refreshFps (frames + 1)) ++ " FPS")
          (refreshStatus (refreshFps (frames + 1))) := by
    simp only [task, h.closure, List.foldl, countFrames, hge, if_false]
  unfold step
  refine ⟨?_, ?_, ?_⟩
  · rw [statusOf_frame f _ (by decide), ht, statusOf_logResult]
    simp
  · unfold Tester.messageOf
    rw [f.get _ (by decide), ht]
    simp [logResult, get_assign]
  · rw [f.rafCallbacks, ht]
    rfl

/-- C9. The probe `testRefreshRate` registers its frame callback, no callback of an earlier
probe pending, and any events of the loop follow: the events of `window`, during which
less than 2000 ms pass, then the events of `closing`, none of them a frame, after which
2000 ms or more have passed, then a frame. The callback runs at every frame of `window`,
counts it and registers itself again; nothing is recorded under `refreshTest` before the
closing frame. The closing frame is counted too and ends the window: with `n` frames
counted, those of `window` and the closing one, the status recorded under `refreshTest`
is the class of the unrounded estimate `n / 2`, pass above 30, partial above 10 and up to
30, fail otherwise, and no callback is left registered. The message carries `n / 2`
rounded to whole frames per second, a half rounding up, and for every natural number the
class of the rounded value is the class of the unrounded one. -/
theorem refresh_rate_window (env : Env) (t : Tester) (window closing : List Event) (n : Nat)
    (hraf : t.rafCallbacks = [])
    (hearly : advanceSum window < 2000)
    (hno : frameCount closing = 0)
    (hlate : 2000 ≤ advanceSum window + advanceSum closing) :
    (exec env (testRefreshRate t) (window ++ closing)).results.get "refreshTest"
        = t.results.get "refreshTest"
    ∧ (exec env (testRefreshRate t) (window ++ closing ++ [.frame])).statusOf "refreshTest"
        = some (if ((frameCount window + 1 : ℕ) : ℚ) / 2 > 30 then "pass"
                else if ((frameCount window + 1 : ℕ) : ℚ) / 2 > 10 then "partial"
                else "fail")
    ∧ (exec env (testRefreshRate t) (window ++ closing ++ [.frame])).messageOf "refreshTest"
        = some ("Estimated refresh rate: " ++ toString (refreshFps (frameCount window + 1))
            ++ " FPS")
    ∧ (exec env (testRefreshRate t) (window ++ closing ++ [.frame])).rafCallbacks = []
    ∧ ((refreshFps (frameCount window + 1) : Nat) : ℤ)
        = ⌊((frameCount window + 1 : ℕ) : ℚ) / 2 + 1 / 2⌋
    ∧ refreshStatus (refreshFps n)
        = (if (n : ℚ) / 2 > 30 then "pass" else if (n : ℚ) / 2 > 10 then "partial"
           else "fail") := by
  have h0 : Counting t.now (t.results.get "refreshTest") 0 0 (testRefreshRate t) :=
    ⟨by simp [testRefreshRate, hraf], rfl, rfl⟩
  have h1 := counting_exec env _ _ 0 0 _ window h0 (by omega)
  have h2 := waiting_exec env _ _ _ _ _ closing h1 hno
  rw [← exec_append] at h2
  obtain ⟨c1, c2, c3⟩ := closing_frame env _ _ _ _ _ h2 (by omega)
  have hx : exec env (testRefreshRate t) (window ++ closing ++ [.frame])
      = step env (exec env (testRefreshRate t) (window ++ closing)) .frame := by
    rw [exec_append]
    rfl
  rw [hx]
  simp only [Nat.zero_add] at c1 c2
  refine ⟨h2.entry, ?_, c2, c3, ?_, refreshStatus_spec n⟩
  · rw [c1, refreshStatus_spec]
  · have := mathRound_eq_floor (frameCount window + 1) 2 (by norm_num)
    simpa [refreshFps] using this

/-- Witness of C9: 44 frames 40 ms apart and the closing frame 2060 ms after the start,
45 frames counted, give partial; 69 frames 28 ms apart and the closing frame give pass;
14 frames 140 ms apart and the closing frame give fail. -/
theorem refresh_rate_window_witness :
    Tester.fresh.rafCallbacks = []
    ∧ advanceSum (framesEvery 40 44) < 2000
    ∧ frameCount [Event.advance 300] = 0
    ∧ 2000 ≤ advanceSum (framesEvery 40 44) + advanceSum [Event.advance 300]
    ∧ frameCount (framesEvery 40 44) + 1 = 45
    ∧ (exec Env.typical (testRefreshRate Tester.fresh)
        (framesEvery 40 44 ++ [.advance 300] ++ [.frame])).statusOf "refreshTest"
        = some "partial"
    ∧ (exec Env.typical (testRefreshRate Tester.fresh)
        (framesEvery 28 69 ++ [.advance 100] ++ [.frame])).statusOf "refreshTest"
        = some "pass"
    ∧ (exec Env.typical (testRefreshRate Tester.fresh)
        (framesEvery 140 14 ++ [.advance 50] ++ [.frame])).statusOf "refreshTest"
        = some "fail" := by
  refine ⟨rfl, by decide, by decide, by decide, by decide, ?_, ?_, ?_⟩
  · rw [(refresh_rate_window Env.typical Tester.fresh (framesEvery 40 44) [.advance 300] 0
      rfl (by decide) (by decide) (by decide)).2.1]
    have h : frameCount (framesEvery 40 44) = 44 := by decide
    rw [h]
    norm_num
  · rw [(refresh_rate_window Env.typical Tester.fresh (framesEvery 28 69) [.advance 100] 0
      rfl (by decide) (by decide) (by decide)).2.1]
    have h : frameCount (framesEvery 28 69) = 69 := by decide
    rw [h]
    norm_num
  · rw [(refresh_rate_window Env.typical Tester.fresh (framesEvery 140 14) [.advance 50] 0
      rfl (by decide) (by decide) (by decide)).2.1]
    have h : frameCount (framesEvery 140 14) = 14 := by decide
    rw [h]
    norm_num

/-! ## The order in which a run records -/

theorem keys_assign (r : Registry) (k : String) (v : Value) :
    (r.assign k v).keys = addKey r.keys k := by
  induction r with
  | nil => simp [Registry.assign, Registry.keys, addKey]
  | cons kv rest ih =>
    obtain ⟨a, w⟩ := kv
    by_cases h : a = k
    · subst h
      simp [Registry.assign, Registry.keys, addKey]
    · have h' : ¬ k = a := fun e => h e.symm
      simp only [Registry.keys, List.map_cons] at ih
      simp only [Registry.assign, h, if_false, Registry.keys, List.map_cons, ih, addKey,
        List.mem_cons, h', false_or]
      split <;> simp

theorem batteryKeys_assign_other (r : Registry) (k : String) (v : Value)
    (hk : k ∉ batteryIds) : batteryKeys (r.assign k v) = batteryKeys r := by
  unfold batteryKeys
  rw [keys_assign, addKey]
  split
  · rfl
  · simp [List.filter_append, hk]

theorem batteryKeys_logResult_other (t : Tester) (testId message status : String)
    (hk : testId ∉ batteryIds) :
    batteryKeys (logResult t testId message status).results = batteryKeys t.results :=
  batteryKeys_assign_other _ _ _ hk

theorem filter_foldl_addKey (ids keys : List String) (hb : ∀ k ∈ ids, k ∈ batteryIds)
    (hnd : ids.Nodup) (hfr : ∀ k ∈ ids, k ∉ keys) :
    (ids.foldl addKey keys).filter (fun k => decide (k ∈ batteryIds))
      = keys.filter (fun k => decide (k ∈ batteryIds)) ++ ids := by
  induction ids generalizing keys with
  | nil => simp
  | cons a rest ih =>
    have ha : a ∉ keys := hfr a (List.mem_cons_self _ _)
    have hab : a ∈ batteryIds := hb a (List.mem_cons_self _ _)
    obtain ⟨hnot, hnd'⟩ := List.nodup_cons.mp hnd
    simp only [List.foldl_cons, addKey, ha, if_false]
    rw [ih (keys ++ [a]) (fun k hk => hb k (List.mem_cons_of_mem _ hk)) hnd']
    · simp [List.filter_append, hab]
    · intro k hk hmem
      rcases List.mem_append.mp hmem with h | h
      · exact hfr k (List.mem_cons_of_mem _ hk) h
      · simp only [List.mem_singleton] at h
        subst h
        exact hnot hk

theorem records_batteryKeys {ids : List String} {p : Tester → Outcome} (h : Records ids p)
    {t u : Tester} (hp : p t = .done u) (L : List String) (hL : batteryKeys t.results = L)
    (hb : ∀ k ∈ ids, k ∈ batteryIds) (hnd : ids.Nodup) (hfr : ∀ k ∈ ids, k ∉ L) :
    batteryKeys u.results = L ++ ids := by
  unfold batteryKeys at hL ⊢
  rw [h t u hp, filter_foldl_addKey ids _ hb hnd, hL]
  intro k hk hmem
  apply hfr k hk
  rw [← hL]
  simp [hmem, hb k hk]

theorem records_nil : Records [] (runSteps []) := by
  intro t u hu
  simp only [runSteps, Outcome.done.injEq] at hu
  subst hu
  rfl

theorem records_cons {ids1 ids2 : List String} {p : Tester → Outcome}
    {ps : List (Tester → Outcome)} (h1 : Records ids1 p) (h2 : Records ids2 (runSteps ps)) :
    Records (ids1 ++ ids2) (runSteps (p :: ps)) := by
  intro t u hu
  rcases hp : p t with t' | ⟨e, t'⟩
  · simp only [runSteps, hp] at hu
    rw [h2 t' u hu, h1 t t' hp, List.foldl_append]
  · simp [runSteps, hp] at hu

theorem records_of_shape (p : Tester → Outcome) (testId : String)
    (h : ∀ t u, p t = .done u → ∃ message status, u = logResult t testId message status) :
    Records [testId] p := by
  intro t u hu
  obtain ⟨m, s, rfl⟩ := h t u hu
  simp [logResult, keys_assign]

theorem records_ok_log (f : Tester → Tester) (testId : String)
    (h : ∀ t, ∃ message status, f t = logResult t testId message status) :
    Records [testId] (ok f) := by
  apply records_of_shape
  intro t u hu
  simp only [ok, Outcome.done.injEq] at hu
  subst hu
  exact h t

theorem records_same (f : Tester → Tester) (h : ∀ t, (f t).results = t.results) :
    Records [] (ok f) := by
  intro t u hu
  simp only [ok, Outcome.done.injEq] at hu
  subst hu
  simp [h t]

theorem records_testResolution (env : Env) :
    Records ["resolutionTest", "resolutionData"] (testResolution env) := by
  intro t u hu
  unfold testResolution at hu
  split at hu
  · simp only [Outcome.done.injEq] at hu
    subst hu
    simp [logResult, keys_assign]
  · cases hu

theorem records_testContrast (env : Env) :
    Records ["contrastTest", "contrastLevels"] (ok (testContrast env)) := by
  intro t u hu
  simp only [ok, Outcome.done.injEq] at hu
  subst hu
  simp [testContrast, logResult, keys_assign]

theorem records_testBasicJavaScript (env : Env) :
    Records ["jsBasicTest"] (ok (testBasicJavaScript env)) := by
  apply records_ok_log
  intro t
  unfold testBasicJavaScript
  split
  · exact ⟨_, _, rfl⟩
  · exact ⟨_, _, rfl⟩

theorem records_testES6Features (env : Env) :
    Records ["es6Test"] (ok (testES6Features env)) := by
  apply records_ok_log
  intro t
  unfold testES6Features
  split
  · exact ⟨_, _, rfl⟩
  · exact ⟨_, _, rfl⟩

theorem records_testFlexbox (env : Env) : Records ["flexboxTest"] (testFlexbox env) := by
  apply records_of_shape
  intro t u hu
  unfold testFlexbox at hu
  split at hu
  · cases hu
  · exact ⟨_, _, (Outcome.done.inj hu).symm⟩

theorem records_testCSSGrid (env : Env) : Records ["gridTest"] (testCSSGrid env) := by
  apply records_of_shape
  intro t u hu
  unfold testCSSGrid at hu
  split at hu
  · cases hu
  · exact ⟨_, _, (Outcome.done.inj hu).symm⟩

theorem records_testAnimations (env : Env) :
    Records ["animationTest"] (testAnimations env) := by
  apply records_of_shape
  intro t u hu
  unfold testAnimations at hu
  split at hu
  · cases hu
  · exact ⟨_, _, (Outcome.done.inj hu).symm⟩

theorem records_testImageSupport (env : Env) :
    Records ["imageTest"] (testImageSupport env) := by
  apply records_of_shape
  intro t u hu
  unfold testImageSupport at hu
  split at hu
  · cases hu
  · exact ⟨_, _, (Outcome.done.inj hu).symm⟩
  · exact ⟨_, _, (Outcome.done.inj hu).symm⟩
  · exact ⟨_, _, (Outcome.done.inj hu).symm⟩

theorem records_testGeolocation (env : Env) :
    Records ["geolocationTest"] (ok (testGeolocation env)) := by
  apply records_ok_log
  intro t
  unfold testGeolocation
  split
  · exact ⟨_, _, rfl⟩
  · exact ⟨_, _, rfl⟩

theorem records_testMemoryUsage (env : Env) :
    Records ["memoryTest"] (ok (testMemoryUsage env)) := by
  apply records_ok_log
  intro t
  unfold testMemoryUsage
  split
  · exact ⟨_, _, rfl⟩
  · exact ⟨_, _, rfl⟩

theorem records_testFetchAPIStart (env : Env) :
    Records (fetchStartIds env) (ok (testFetchAPIStart env)) := by
  intro t u hu
  simp only [ok, Outcome.done.injEq] at hu
  subst hu
  unfold fetchStartIds testFetchAPIStart
  by_cases h : env.fetchAvailable = true
  · simp [h]
  · simp [h, logResult, keys_assign]

/-- The first part of `runAllTests` after the registry is cleared records the ids of
`part1Ids` in this order. -/
theorem records_part1 (env : Env) :
    Records part1Ids
      (runSteps [testResolution env, ok testRefreshRate, ok (testContrast env),
        ok testFontRendering, ok (testBasicJavaScript env), ok (testES6Features env),
        ok testAsyncSupportStart]) := by
  have h := records_cons (records_testResolution env)
    (records_cons (records_same testRefreshRate fun _ => rfl)
      (records_cons (records_testContrast env)
        (records_cons (records_ok_log testFontRendering "fontTest" fun _ => ⟨_, _, rfl⟩)
          (records_cons (records_testBasicJavaScript env)
            (records_cons (records_testES6Features env)
              (records_cons (records_same testAsyncSupportStart fun _ => rfl)
                records_nil))))))
  simpa [part1Ids] using h

theorem records_part2 (env : Env) :
    Records (part2Order ++ fetchStartIds env) (runAllTestsPart2 env) := by
  have h := records_cons (records_ok_log testAsyncSupportResume "asyncTest"
      fun _ => ⟨_, _, rfl⟩)
    (records_cons (records_same testPromiseSupport fun _ => rfl)
      (records_cons (records_testFlexbox env)
        (records_cons (records_testCSSGrid env)
          (records_cons (records_testAnimations env)
            (records_cons (records_testImageSupport env)
              (records_cons (records_ok_log (testSVGSupport env) "svgTest"
                  fun _ => ⟨_, _, rfl⟩)
                (records_cons (records_ok_log (testFormControls env) "formTest"
                    fun _ => ⟨_, _, rfl⟩)
                  (records_cons (records_ok_log (testStorage env) "storageTest"
                      fun _ => ⟨_, _, rfl⟩)
                    (records_cons (records_testFetchAPIStart env) records_nil)))))))))
  simpa [part2Order] using h

theorem records_part3 (env : Env) : Records part3Order (runAllTestsPart3 env) := by
  have h := records_cons (records_testGeolocation env)
    (records_cons (records_ok_log (testRenderingPerformance env) "renderTest"
        fun _ => ⟨_, _, rfl⟩)
      (records_cons (records_testMemoryUsage env)
        (records_cons (records_same generateSummary fun _ => rfl)
          (records_cons (records_same (updateExportData env) fun _ => rfl) records_nil))))
  simpa [part3Order] using h

theorem records_promiseThen : Records ["promiseTest"] (ok promiseThen) :=
  records_ok_log promiseThen "promiseTest" fun _ => ⟨_, _, rfl⟩

theorem records_testFetchAPIResume (r : Except String String) :
    Records ["fetchTest"] (ok (testFetchAPIResume r)) := by
  apply records_ok_log
  intro t
  cases r with
  | ok text => exact ⟨_, _, rfl⟩
  | error e => exact ⟨_, _, rfl⟩

theorem countFrames_batteryKeys (c : RafClosure) (t : Tester) :
    batteryKeys (countFrames c t).results = batteryKeys t.results := by
  unfold countFrames
  simp only []
  split
  · rfl
  · exact batteryKeys_logResult_other _ _ _ _ (by decide)

theorem foldl_countFrames_batteryKeys (cs : List RafClosure) (t : Tester) :
    batteryKeys (cs.foldl (fun s c => countFrames c s) t).results = batteryKeys t.results := by
  induction cs generalizing t with
  | nil => rfl
  | cons c rest ih => exact (ih (countFrames c t)).trans (countFrames_batteryKeys c t)

theorem late_task_batteryKeys (env : Env) (t : Tester) (e : Event) (he : e.isLate = true) :
    batteryKeys (task env t e).results = batteryKeys t.results := by
  cases e with
  | advance ms => rfl
  | frame => exact foldl_countFrames_batteryKeys _ _
  | timer => cases he
  | fetchSettled r => cases he
  | touchArea e =>
    cases e with
    | touchstart => exact batteryKeys_logResult_other _ _ _ _ (by decide)
    | click =>
      simp only [task, onTouchEvent, onClick]
      split
      · exact batteryKeys_logResult_other _ _ _ _ (by decide)
      · rfl
    | graceTimer =>
      simp only [task, onTouchEvent, onGraceTimer]
      split
      · exact batteryKeys_logResult_other _ _ _ _ (by decide)
      · rfl
  | toggleContrast => exact batteryKeys_logResult_other _ _ _ _ (by decide)

theorem order_step_late (env : Env) (t : Tester) (e : Event) (he : e.isLate = true)
    (hq : t.microtasks = []) (h : OrderInv env t) : OrderInv env (step env t e) := by
  obtain ⟨h1, _, h3, _⟩ := late_step_keeps env t e hq he
  obtain ⟨_, k2, _, _⟩ := late_task_keeps env t e he
  have hr : batteryKeys (step env t e).results = batteryKeys t.results := by
    unfold step
    rw [runMicrotasks_nil env _ (k2.trans hq)]
    exact late_task_batteryKeys env t e he
  refine ⟨?_, ?_, ?_⟩
  · intro hph
    rw [hr]
    exact h.part1 (h3 ▸ hph)
  · intro hph
    rw [hr]
    exact h.part2 (h3 ▸ hph)
  · intro hph
    rw [h1]
    exact h.done (h3 ▸ hph)

/-- The last part of `runAllTests` records its three ids after those recorded so far, and
the snapshot it stores has the registry in this order. -/
theorem order_finish (env : Env) (x : Tester) (L : List String)
    (hL : batteryKeys x.results = L) (hfr : ∀ k ∈ part3Order, k ∉ L) :
    (settle .finished (runAllTestsPart3 env x)).phase = .finished
    ∧ ∃ snap, (settle .finished (runAllTestsPart3 env x)).exportData = some snap
        ∧ batteryKeys snap.results = L ++ part3Order := by
  obtain ⟨u, snap, hd, _, _, _, hx, hr, _⟩ := finish_facts env x
  have hk := records_batteryKeys (records_part3 env) hd L hL (by decide) (by decide) hfr
  rw [hd]
  exact ⟨rfl, snap, hx, by rw [hr]; exact hk⟩

theorem orderInv_of_finished (env : Env) (t : Tester) (hph : t.phase = .finished)
    (h : ∃ snap, t.exportData = some snap ∧ batteryKeys snap.results = recordedOrder env) :
    OrderInv env t := by
  refine ⟨?_, ?_, fun _ => h⟩
  · intro h1
    rw [hph] at h1
    cases h1
  · intro h1
    rw [hph] at h1
    cases h1

theorem orderInv_of_rejected (env : Env) (t : Tester) (e : String)
    (hph : t.phase = .rejected e) : OrderInv env t := by
  refine ⟨?_, ?_, ?_⟩ <;>
  · intro h1
    rw [hph] at h1
    cases h1

theorem order_step_fetchSettled (env : Env) (t : Tester) (r : Except String String)
    (hq : t.microtasks = []) (h : OrderInv env t) :
    OrderInv env (step env t (.fetchSettled r)) := by
  by_cases hg : t.phase = .awaitFetch ∧ env.fetchAvailable = true
  · have ht : task env t (.fetchSettled r)
        = settle .finished (runAllTestsPart3 env (testFetchAPIResume r t)) := by
      simp only [task]
      rw [if_pos hg]
    have hstep : step env t (.fetchSettled r)
        = settle .finished (runAllTestsPart3 env (testFetchAPIResume r t)) := by
      unfold step
      rw [ht]
      obtain ⟨u, snap, hd, _, m, _⟩ := finish_facts env (testFetchAPIResume r t)
      apply runMicrotasks_nil
      rw [hd]
      show u.microtasks = []
      rw [m]
      have d1 := ((logs_testFetchAPIResume r t).2 _ rfl).2
      rw [d1, hq]
      rfl
    have hk : batteryKeys (testFetchAPIResume r t).results
        = part1Ids ++ part2Order ++ ["promiseTest"] ++ ["fetchTest"] :=
      records_batteryKeys (records_testFetchAPIResume r) rfl _ (h.part2 hg.1)
        (by decide) (by decide) (by decide)
    obtain ⟨hph, snap, hx, hs⟩ := order_finish env _ _ hk (by decide)
    rw [hstep]
    apply orderInv_of_finished env _ hph
    refine ⟨snap, hx, ?_⟩
    rw [hs]
    simp [recordedOrder, hg.2]
  · have hstep : step env t (.fetchSettled r) = t := by
      unfold step
      simp only [task]
      rw [if_neg hg]
      exact runMicrotasks_nil env t hq
    rw [hstep]
    exact h

theorem order_step_timer (env : Env) (t : Tester) (hq : t.microtasks = [])
    (h : OrderInv env t) : OrderInv env (step env t .timer) := by
  by_cases hg : t.phase = .awaitTimer ∧ t.timerDue ≤ t.now
  swap
  · have hstep : step env t .timer = t := by
      unfold step
      simp only [task]
      rw [if_neg hg]
      exact runMicrotasks_nil env t hq
    rw [hstep]
    exact h
  have ht : task env t .timer = settle .awaitFetch (runAllTestsPart2 env t) := by
    simp only [task]
    rw [if_pos hg]
  obtain ⟨f, d⟩ := logs_part2 env t
  rcases hp : runAllTestsPart2 env t with u | ⟨e, u⟩
  · obtain ⟨_, mq⟩ := d u hp
    rw [hq, List.nil_append] at mq
    by_cases fa : env.fetchAvailable = true
    · have hstep : step env t .timer = afterPromise u := by
        unfold step
        rw [ht, hp]
        simp only [settle, runMicrotasks, mq, fetchQueued, fa, if_true, List.foldl, runMicro,
          afterPromise]
      have hu : batteryKeys u.results = part1Ids ++ part2Order := by
        have := records_batteryKeys (records_part2 env) hp _ (h.part1 hg.1)
          (by simp only [fetchStartIds, fa, if_true]; decide)
          (by simp only [fetchStartIds, fa, if_true]; decide)
          (by simp only [fetchStartIds, fa, if_true]; decide)
        simpa [fetchStartIds, fa] using this
      have hk : batteryKeys (afterPromise u).results
          = part1Ids ++ part2Order ++ ["promiseTest"] :=
        records_batteryKeys records_promiseThen
          (t := { u with phase := .awaitFetch, microtasks := [] }) rfl _ hu
          (by decide) (by decide) (by decide)
      rw [hstep]
      refine ⟨?_, fun _ => hk, ?_⟩
      · intro h1
        cases h1
      · intro h1
        cases h1
    · have hstep : step env t .timer
          = settle .finished (runAllTestsPart3 env (afterPromise u)) := by
        unfold step
        rw [ht, hp]
        simp only [settle, runMicrotasks, mq, fetchQueued, fa, List.foldl, runMicro,
          afterPromise]
        rfl
      have hu : batteryKeys u.results = part1Ids ++ part2Order ++ ["fetchTest"] := by
        have := records_batteryKeys (records_part2 env) hp _ (h.part1 hg.1)
          (by simp only [fetchStartIds, fa]; decide)
          (by simp only [fetchStartIds, fa]; decide)
          (by simp only [fetchStartIds, fa]; decide)
        simpa [fetchStartIds, fa] using this
      have hk : batteryKeys (afterPromise u).results
          = part1Ids ++ part2Order ++ ["fetchTest"] ++ ["promiseTest"] :=
        records_batteryKeys records_promiseThen
          (t := { u with phase := .awaitFetch, microtasks := [] }) rfl _ hu
          (by decide) (by decide) (by decide)
      obtain ⟨hph, snap, hx, hs⟩ := order_finish env _ _ hk (by decide)
      rw [hstep]
      apply orderInv_of_finished env _ hph
      refine ⟨snap, hx, ?_⟩
      rw [hs]
      simp [recordedOrder, fa]
  · apply orderInv_of_rejected env _ e
    unfold step
    rw [ht, hp, phase_runMicrotasks_of_ne]
    · rfl
    · simp [settle]

theorem order_step (env : Env) (t : Tester) (e : Event) (hq : t.microtasks = [])
    (h : OrderInv env t) : OrderInv env (step env t e) := by
  cases e with
  | advance ms => exact order_step_late env t _ rfl hq h
  | frame => exact order_step_late env t _ rfl hq h
  | timer => exact order_step_timer env t hq h
  | fetchSettled r => exact order_step_fetchSettled env t r hq h
  | touchArea e => exact order_step_late env t _ rfl hq h
  | toggleContrast => exact order_step_late env t _ rfl hq h

theorem order_exec (env : Env) (s : Nat) (t : Tester) (es : List Event) (hr : RunInv s t)
    (h : OrderInv env t) : OrderInv env (exec env t es) := by
  induction es generalizing t with
  | nil => exact h
  | cons e rest ih =>
    rw [exec_cons]
    exact ih _ (inv_step env s t e hr) (order_step env t e hr.queue h)

theorem order_runAllTests (env : Env) (t : Tester) (hq : t.microtasks = []) :
    OrderInv env (runAllTests env t) := by
  unfold runAllTests
  rcases part1_cases env t with h | ⟨t2, u, _, _, _, _, hu, _, m2, _⟩
  · rw [h]
    apply orderInv_of_rejected env _ nullError
    rw [phase_runMicrotasks_of_ne]
    · rfl
    · simp [settle]
  · rw [hu]
    have hs : settle .awaitTimer (.done u) = { u with phase := .awaitTimer } := rfl
    rw [hs, runMicrotasks_nil env _ (by simpa using m2.trans hq)]
    have hu' : runSteps [testResolution env, ok testRefreshRate, ok (testContrast env),
        ok testFontRendering, ok (testBasicJavaScript env), ok (testES6Features env),
        ok testAsyncSupportStart] (resetRun t) = .done u := hu
    have hk : batteryKeys u.results = [] ++ part1Ids :=
      records_batteryKeys (records_part1 env) hu' [] rfl (by decide) (by decide)
        (by decide)
    refine ⟨fun _ => by simpa using hk, ?_, ?_⟩
    · intro h1
      cases h1
    · intro h1
      cases h1

/-- C2, amended. Take a run of `runAllTests` started with no microtask and no frame
callback of an earlier run pending, followed by any events of the loop; `runAllTests`
is not called again, a call of it not being among the events. The registry is emptied when
the run starts, so the order of its battery ids is the order in which the run recorded
them. While the run is suspended in `testAsyncSupport`, exactly the entries of the probes
before it are recorded, in their declared order. While it is suspended in `testFetchAPI`,
exactly the entries of the probes up to `testStorage` are recorded, in their declared order
but for `promiseTest`, which the `.then` callback of `testPromiseSupport` has recorded last,
after `storageTest`. When the run has finished, `generateSummary` and `updateExportData`
have seen one and the same registry; it holds the entry of every battery probe other than
`refreshTest`, recorded in the declared order but for `promiseTest`, which comes after
`storageTest` and before `fetchTest` when `fetch` exists and directly after `fetchTest`
when it does not. `refreshTest` is not awaited: when the summary is produced less than
2000 ms after the start of the run, the registry it saw has no entry `refreshTest`. -/
theorem summary_registry (env : Env) (t : Tester) (es : List Event)
    (hq : t.microtasks = []) (hraf : t.rafCallbacks = []) :
    ((exec env (runAllTests env t) es).phase = .awaitTimer →
        batteryKeys (exec env (runAllTests env t) es).results = part1Ids)
    ∧ ((exec env (runAllTests env t) es).phase = .awaitFetch →
        batteryKeys (exec env (runAllTests env t) es).results
          = part1Ids ++ part2Order ++ ["promiseTest"])
    ∧ ((exec env (runAllTests env t) es).phase = .finished →
        ∃ snap, (exec env (runAllTests env t) es).exportData = some snap
          ∧ (exec env (runAllTests env t) es).summaryContent
              = some (summaryCounts snap.results)
          ∧ snap.summary = summaryCounts snap.results
          ∧ (∀ k ∈ batteryIds, snap.results.has k = true)
          ∧ batteryKeys snap.results = recordedOrder env
          ∧ (snap.timestamp < t.now + 2000 → snap.results.has "refreshTest" = false)) := by
  have hinv := inv_exec env t.now _ es (inv_runAllTests env t hq hraf)
  have hord := order_exec env t.now _ es (inv_runAllTests env t hq hraf)
    (order_runAllTests env t hq)
  refine ⟨hord.part1, hord.part2, ?_⟩
  intro hfin
  obtain ⟨snap, h1, h2, h3, h4, h5⟩ := hinv.done hfin
  obtain ⟨snap', k1, k2⟩ := hord.done hfin
  have hs : snap' = snap := Option.some.inj (k1.symm.trans h1)
  subst hs
  refine ⟨snap', h1, h2, h3, h4, k2, ?_⟩
  intro hlt
  simp [Registry.has, h5 hlt]

/-- Witness of C2: the typical page, the run that completes after 12 ms, and its state at
the two suspensions. -/
theorem summary_registry_witness :
    Tester.fresh.microtasks = [] ∧ Tester.fresh.rafCallbacks = []
    ∧ (exec Env.typical (runAllTests Env.typical Tester.fresh) []).phase = .awaitTimer
    ∧ batteryKeys (exec Env.typical (runAllTests Env.typical Tester.fresh) []).results
        = part1Ids
    ∧ (exec Env.typical (runAllTests Env.typical Tester.fresh)
        [.advance 10, .timer]).phase = .awaitFetch
    ∧ batteryKeys (exec Env.typical (runAllTests Env.typical Tester.fresh)
        [.advance 10, .timer]).results = part1Ids ++ part2Order ++ ["promiseTest"]
    ∧ (exec Env.typical (runAllTests Env.typical Tester.fresh) quickRun).phase = .finished
    ∧ (∃ snap, (exec Env.typical (runAllTests Env.typical Tester.fresh) quickRun).exportData
          = some snap
      ∧ (exec Env.typical (runAllTests Env.typical Tester.fresh) quickRun).summaryContent
          = some (summaryCounts snap.results)
      ∧ snap.summary = summaryCounts snap.results
      ∧ (∀ k ∈ batteryIds, snap.results.has k = true)
      ∧ batteryKeys snap.results = recordedOrder Env.typical
      ∧ (snap.timestamp < Tester.fresh.now + 2000 → snap.results.has "refreshTest" = false))
    ∧ recordedOrder Env.typical
        = ["resolutionTest", "resolutionData", "contrastTest", "contrastLevels", "fontTest",
           "jsBasicTest", "es6Test", "asyncTest", "flexboxTest", "gridTest", "animationTest",
           "imageTest", "svgTest", "formTest", "storageTest", "promiseTest", "fetchTest",
           "geolocationTest", "renderTest", "memoryTest"]
    ∧ recordedOrder Env.noFetch
        = ["resolutionTest", "resolutionData", "contrastTest", "contrastLevels", "fontTest",
           "jsBasicTest", "es6Test", "asyncTest", "flexboxTest", "gridTest", "animationTest",
           "imageTest", "svgTest", "formTest", "storageTest", "fetchTest", "promiseTest",
           "geolocationTest", "renderTest", "memoryTest"] :=
  ⟨rfl, rfl, rfl, (summary_registry Env.typical Tester.fresh [] rfl rfl).1 rfl,
    rfl, (summary_registry Env.typical Tester.fresh [.advance 10, .timer] rfl rfl).2.1 rfl,
    rfl, (summary_registry Env.typical Tester.fresh quickRun rfl rfl).2.2 rfl, rfl, rfl⟩

end EInk
